import Mathlib

/-!
# SAI switch reconciliation: a shallow embedding

Lean model of the reconciliation code of `fboss/agent/hw/sai/SaiSwitch.cpp`
(the VLAN membership merge of `ProcessChangedVlan`, the VLAN creation path with
the warm-boot cache, the VLAN removal handlers, the neighbor entry processor,
the route handlers and the phase sequence of `stateChanged`) and of the interface
table of `fboss/agent/hw/sai/SaiIntfTable.cpp`.

Conventions.
* `std::map` / `flat_map` containers iterated in key order are lists in
  iteration order; an iterator is the suffix that is still to be visited.
* A C++ `throw SaiError` is an explicit error value; `try`/`catch` is a
  `match` on it.
* Calls that leave the modelled code (SAI API, port table, host table, route
  table) are recorded in a trace, oldest call first; their answers are
  parameters of the model.
-/

namespace SaiSwitch

/-! ## Basic types -/

/-- Logical port number (`PortID`). -/
abbrev PortID := Nat

/-- VLAN number (`VlanID`, `sai_vlan_id_t`). -/
abbrev VlanID := Nat

/-- Hardware object handle (`sai_object_id_t`). -/
abbrev sai_object_id_t := Nat

/-- Status code returned by every SAI API call (`sai_status_t`). -/
abbrev sai_status_t := Int

/-- The success status. -/
def SAI_STATUS_SUCCESS : sai_status_t := 0

/-- Recoverable programming error (`SaiError`). -/
structure SaiError where
  what : Nat
deriving DecidableEq, Repr

/-- Tagging mode of a VLAN member port (`sai_vlan_tagging_mode_t`). -/
inductive sai_vlan_tagging_mode_t where
  | SAI_VLAN_PORT_UNTAGGED
  | SAI_VLAN_PORT_TAGGED
deriving DecidableEq, Repr

open sai_vlan_tagging_mode_t

/-- Hardware VLAN member (`sai_vlan_port_t`).  `tagging_mode` is `none` when the
code pushes the struct without ever assigning that field. -/
structure sai_vlan_port_t where
  port_id : sai_object_id_t
  tagging_mode : Option sai_vlan_tagging_mode_t
deriving DecidableEq, Repr

/-- Membership of a VLAN (`Vlan::MemberPorts`): pairs of port ID and the
`tagged` flag, in the container's iteration order (ascending port ID). -/
abbrev MemberPorts := List (PortID × Bool)

/-- Software VLAN node (`Vlan`). -/
structure Vlan where
  id : VlanID
  ports : MemberPorts
deriving DecidableEq, Repr

/-- Calls into the SAI VLAN API (`pSaiVlanApi_`). -/
inductive VlanApiCall where
  | create_vlan (vlanId : VlanID)
  | remove_vlan (vlanId : VlanID)
  | add_ports_to_vlan (vlanId : VlanID) (ports : List sai_vlan_port_t)
  | remove_ports_from_vlan (vlanId : VlanID) (ports : List sai_vlan_port_t)
deriving DecidableEq, Repr

/-- The port table lookup `portTable_->GetSaiPortId`: `none` stands for the
`SaiError` it throws on an unknown port. -/
abbrev GetSaiPortId := PortID → Option sai_object_id_t

/-- The expression `tagged ? SAI_VLAN_PORT_TAGGED : SAI_VLAN_PORT_UNTAGGED`. -/
def taggingMode (tagged : Bool) : sai_vlan_tagging_mode_t :=
  if tagged then SAI_VLAN_PORT_TAGGED else SAI_VLAN_PORT_UNTAGGED

/-! ## The merge loop of `ProcessChangedVlan` (lines 776-822) -/

/-- Local variables of the merge loop: the two iterators (as the suffixes still
to be visited) and the two output vectors. -/
structure MergeState where
  oldIter : MemberPorts
  newIter : MemberPorts
  addedPorts : List sai_vlan_port_t
  removedPorts : List sai_vlan_port_t
deriving DecidableEq, Repr

/-- One evaluation of the `while` condition followed, when it holds, by one
execution of the loop body.  `none` means the condition was false and the loop
is left.  The condition is `oldIter != end && newIter != end`, so inside the
body both iterators are dereferenceable and the tests `oldIter == end`,
`newIter == end` of the two `if`s are false. -/
def mergeStep (getSaiPortId : GetSaiPortId) (s : MergeState) : Option MergeState :=
  match s.oldIter, s.newIter with
  | o :: os, n :: ns =>
    if n.1 < o.1 then
      -- first branch: the port is an addition
      match getSaiPortId n.1 with
      | none => some { s with newIter := ns }
      | some saiPort =>
        some { s with
          addedPorts := s.addedPorts ++ [⟨saiPort, some (taggingMode n.2)⟩]
          newIter := ns }
    else if o.1 < n.1 then
      -- second branch: the port is a removal; only the catch block advances
      match getSaiPortId o.1 with
      | none => some { s with oldIter := os }
      | some saiPort =>
        some { s with removedPorts := s.removedPorts ++ [⟨saiPort, none⟩] }
    else
      some { s with oldIter := os, newIter := ns }
  | _, _ => none

/-- The `while` loop, run for at most `fuel` evaluations of its condition.
`some s` is the state in which the loop was left; `none` means the loop was
still running when the fuel ran out. -/
def mergeLoop (getSaiPortId : GetSaiPortId) : Nat → MergeState → Option MergeState
  | 0, _ => none
  | fuel + 1, s =>
    match mergeStep getSaiPortId s with
    | none => some s
    | some s' => mergeLoop getSaiPortId fuel s'

/-- State after exactly `n` executions of the loop body, or `none` when the
loop was left before. -/
def mergeIter (getSaiPortId : GetSaiPortId) : Nat → MergeState → Option MergeState
  | 0, s => some s
  | n + 1, s =>
    match mergeStep getSaiPortId s with
    | none => none
    | some s' => mergeIter getSaiPortId n s'

/-- Initial state of the loop: both iterators at `begin()`, both vectors
empty. -/
def mergeInit (oldVlan newVlan : Vlan) : MergeState :=
  { oldIter := oldVlan.ports, newIter := newVlan.ports, addedPorts := [], removedPorts := [] }

/-- The diff computed by `ProcessChangedVlan`: the vectors `addedPorts` and
`removedPorts` as they stand when the loop is left. -/
def ProcessChangedVlan_diff (getSaiPortId : GetSaiPortId) (fuel : Nat) (oldVlan newVlan : Vlan) :
    Option (List sai_vlan_port_t × List sai_vlan_port_t) :=
  (mergeLoop getSaiPortId fuel (mergeInit oldVlan newVlan)).map
    fun s => (s.addedPorts, s.removedPorts)

/-! ## VLAN removal handlers (lines 942-986) -/

/-- The loop that both `ProcessAddedVlan` and `PreprocessRemovedVlan` run over
`vlan->getPorts()`: resolve each member, skip the ones whose lookup throws. -/
def buildPortList (getSaiPortId : GetSaiPortId) : MemberPorts → List sai_vlan_port_t
  | [] => []
  | entry :: rest =>
    match getSaiPortId entry.1 with
    | none => buildPortList getSaiPortId rest
    | some saiPort => ⟨saiPort, some (taggingMode entry.2)⟩ :: buildPortList getSaiPortId rest

/-- Model of `PreprocessRemovedVlan`: the SAI VLAN calls it issues, in order.  Both
statuses are only logged, so the answers of the hardware (`vlanApi`) do not
change what is issued. -/
def PreprocessRemovedVlan (getSaiPortId : GetSaiPortId) (vlanApi : VlanApiCall → sai_status_t)
    (vlan : Vlan) : List VlanApiCall :=
  let vlanId := vlan.id
  let portList := buildPortList getSaiPortId vlan.ports
  let call1 := VlanApiCall.remove_ports_from_vlan vlanId portList
  let _saiStatus1 := vlanApi call1
  let call2 := VlanApiCall.remove_vlan vlanId
  let _saiStatus2 := vlanApi call2
  [call1, call2]

/-- Model of `ProcessRemovedVlan`: the `remove_vlan` call is commented out, `saiStatus`
keeps its initial value and the `throw` is dead.  Returns the calls issued. -/
def ProcessRemovedVlan (_vlan : Vlan) : Except SaiError (List VlanApiCall) :=
  let saiStatus := SAI_STATUS_SUCCESS
  if saiStatus ≠ SAI_STATUS_SUCCESS then
    Except.error ⟨0⟩
  else
    Except.ok []

/-! ## Deltas (`NodeMapDelta`, `DeltaValue`, `DeltaFunctions`) -/

/-- One entry of a node-map delta (`DeltaValue`): a node that is only in the new
state, only in the old state, or in both. -/
inductive DeltaValue (α : Type) where
  | added (newNode : α)
  | removed (oldNode : α)
  | changed (oldNode newNode : α)
deriving DecidableEq, Repr

/-- The accessor `getOld()`: null when the node was added. -/
def DeltaValue.getOld {α : Type} : DeltaValue α → Option α
  | .added _ => none
  | .removed o => some o
  | .changed o _ => some o

/-- The accessor `getNew()`: null when the node was removed. -/
def DeltaValue.getNew {α : Type} : DeltaValue α → Option α
  | .added n => some n
  | .removed _ => none
  | .changed _ n => some n

/-- Modelled from the spec: the generic delta-iteration helper with one callable
(`DeltaFunctions::forEachChanged`, header not among the sources).  Walks the
delta in order and runs `changedFn` on every entry that has both an old and a
new node; the result collects what the callable produced. -/
def forEachChanged {α β : Type} (delta : List (DeltaValue α)) (changedFn : α → α → List β) :
    List β :=
  match delta with
  | [] => []
  | .changed o n :: rest => changedFn o n ++ forEachChanged rest changedFn
  | _ :: rest => forEachChanged rest changedFn

/-- Modelled from the spec: the delta-iteration helper with three callables
(changed, added, removed handlers), dispatching each entry in delta order. -/
def forEachChanged3 {α β : Type} (delta : List (DeltaValue α)) (changedFn : α → α → List β)
    (addedFn : α → List β) (removedFn : α → List β) : List β :=
  match delta with
  | [] => []
  | .changed o n :: rest => changedFn o n ++ forEachChanged3 rest changedFn addedFn removedFn
  | .added n :: rest => addedFn n ++ forEachChanged3 rest changedFn addedFn removedFn
  | .removed o :: rest => removedFn o ++ forEachChanged3 rest changedFn addedFn removedFn

/-- Modelled from the spec: `DeltaFunctions::forEachAdded`, running `addedFn` on
every entry without an old node. -/
def forEachAdded {α β : Type} (delta : List (DeltaValue α)) (addedFn : α → List β) : List β :=
  match delta with
  | [] => []
  | .added n :: rest => addedFn n ++ forEachAdded rest addedFn
  | _ :: rest => forEachAdded rest addedFn

/-- Modelled from the spec: `DeltaFunctions::forEachRemoved`, running `removedFn`
on every entry without a new node. -/
def forEachRemoved {α β : Type} (delta : List (DeltaValue α)) (removedFn : α → List β) :
    List β :=
  match delta with
  | [] => []
  | .removed o :: rest => removedFn o ++ forEachRemoved rest removedFn
  | _ :: rest => forEachRemoved rest removedFn

/-! ## Neighbor entries (lines 601-667) -/

/-- Router interface number (`InterfaceID`). -/
abbrev InterfaceID := Nat

/-- Layer-3 address (`folly::IPAddress`). -/
abbrev IPAddress := Nat

/-- Layer-2 address (`folly::MacAddress`). -/
abbrev MacAddress := Nat

/-- ARP or NDP entry of the switch state (`ArpEntry`, `NdpEntry`). -/
structure NeighborEntry where
  intfID : InterfaceID
  ip : IPAddress
  mac : MacAddress
  pending : Bool
deriving DecidableEq, Repr

/-- Forwarding action of a host (`sai_packet_action_t`). -/
inductive sai_packet_action_t where
  | SAI_PACKET_ACTION_DROP
  | SAI_PACKET_ACTION_FORWARD
  | SAI_PACKET_ACTION_TRAP
deriving DecidableEq, Repr

open sai_packet_action_t

/-- Arguments that identify a host in the host table. -/
structure HostKey where
  intf : InterfaceID
  ip : IPAddress
  mac : MacAddress
deriving DecidableEq, Repr

/-- Tuple of a neighbor entry, as passed to the host table. -/
def NeighborEntry.key (e : NeighborEntry) : HostKey := ⟨e.intfID, e.ip, e.mac⟩

/-- Calls made by the neighbor processor: the two host table operations and
`SaiHost::Program`. -/
inductive HostCall where
  | IncRefOrCreateSaiHost (key : HostKey)
  | DerefSaiHost (key : HostKey)
  | Program (host : HostKey) (action : sai_packet_action_t)
deriving DecidableEq, Repr

/-- Modelled from the spec: the host table (`SaiHostTable`, not among the sources),
reduced to the reference count it keeps per tuple; a tuple without host has
count 0. -/
structure SaiHostTable where
  refCount : HostKey → Nat

/-- Modelled from the spec: `acquire` returns the (possibly newly created) host
of the tuple with its reference count incremented.  The host is named by its
tuple. -/
def SaiHostTable.IncRefOrCreateSaiHost (t : SaiHostTable) (key : HostKey) :
    HostKey × SaiHostTable :=
  (key, { refCount := Function.update t.refCount key (t.refCount key + 1) })

/-- Modelled from the spec: `release` decrements the reference count and returns
the host if this was the last reference, else none.  The spec does not say
what happens for a tuple without host; here nothing changes and none is
returned. -/
def SaiHostTable.DerefSaiHost (t : SaiHostTable) (key : HostKey) :
    Option HostKey × SaiHostTable :=
  if t.refCount key = 0 then
    (none, t)
  else if t.refCount key = 1 then
    (some key, { refCount := Function.update t.refCount key 0 })
  else
    (none, { refCount := Function.update t.refCount key (t.refCount key - 1) })

/-- State threaded through the neighbor processor: the host table and the calls
made so far. -/
structure NeighborState where
  hostTable : SaiHostTable
  trace : List HostCall

/-- Answer of the hardware to `SaiHost::Program`, given the calls made before:
`none` is success, `some e` the `SaiError` thrown. -/
abbrev HostProgramApi := List HostCall → HostKey → sai_packet_action_t → Option SaiError

/-- The call `host->Program(action)`: recorded, then answered by the hardware. -/
def hostProgram (api : HostProgramApi) (host : HostKey) (action : sai_packet_action_t)
    (s : NeighborState) : NeighborState × Option SaiError :=
  ({ s with trace := s.trace ++ [HostCall.Program host action] }, api s.trace host action)

/-- The lambda `refNewEntry` of `ProcessNeighborEntryDelta`. -/
def refNewEntry (api : HostProgramApi) (newEntry : NeighborEntry) (s : NeighborState) :
    Except SaiError NeighborState :=
  let action := if newEntry.pending then SAI_PACKET_ACTION_DROP else SAI_PACKET_ACTION_FORWARD
  let (host, table1) := s.hostTable.IncRefOrCreateSaiHost newEntry.key
  let s1 : NeighborState :=
    { hostTable := table1, trace := s.trace ++ [HostCall.IncRefOrCreateSaiHost newEntry.key] }
  match hostProgram api host action s1 with
  | (s2, none) => Except.ok s2
  | (s2, some _e) =>
    -- catch (const SaiError &e)
    let (_, table3) := s2.hostTable.DerefSaiHost newEntry.key
    Except.ok { hostTable := table3, trace := s2.trace ++ [HostCall.DerefSaiHost newEntry.key] }

/-- The lambda `unrefOldEntry` of `ProcessNeighborEntryDelta`. -/
def unrefOldEntry (api : HostProgramApi) (oldEntry : NeighborEntry) (s : NeighborState) :
    Except SaiError NeighborState :=
  let (host, table1) := s.hostTable.DerefSaiHost oldEntry.key
  let s1 : NeighborState :=
    { hostTable := table1, trace := s.trace ++ [HostCall.DerefSaiHost oldEntry.key] }
  match host with
  | some h =>
    match hostProgram api h SAI_PACKET_ACTION_TRAP s1 with
    | (s2, none) => Except.ok s2
    | (s2, some _e) => Except.ok s2
  | none => Except.ok s1

/-- Model of `ProcessNeighborEntryDelta`. -/
def ProcessNeighborEntryDelta (api : HostProgramApi) (delta : DeltaValue NeighborEntry)
    (s : NeighborState) : Except SaiError NeighborState :=
  match delta with
  | .added newEntry => refNewEntry api newEntry s
  | .removed oldEntry => unrefOldEntry api oldEntry s
  | .changed oldEntry newEntry =>
    if oldEntry.intfID ≠ newEntry.intfID ∨ oldEntry.ip ≠ newEntry.ip ∨
        oldEntry.mac ≠ newEntry.mac then
      match refNewEntry api newEntry s with
      | Except.ok s1 => unrefOldEntry api oldEntry s1
      | Except.error e => Except.error e
    else
      Except.ok s

/-- One entry of the VLAN map delta with its neighbor sub-deltas (`VlanDelta`). -/
structure VlanDelta where
  vlan : DeltaValue Vlan
  arpDelta : List (DeltaValue NeighborEntry)
  ndpDelta : List (DeltaValue NeighborEntry)
deriving DecidableEq, Repr

/-- A range-for loop over neighbor deltas, each handled by
`ProcessNeighborEntryDelta`; an error leaving a call ends the loop. -/
def processNeighborDeltas (api : HostProgramApi) :
    List (DeltaValue NeighborEntry) → NeighborState → Except SaiError NeighborState
  | [], s => Except.ok s
  | d :: rest, s =>
    match ProcessNeighborEntryDelta api d s with
    | Except.ok s1 => processNeighborDeltas api rest s1
    | Except.error e => Except.error e

/-- Model of `ProcessArpChanges`: for every VLAN delta, first its ARP deltas, then its
NDP deltas. -/
def ProcessArpChanges (api : HostProgramApi) :
    List VlanDelta → NeighborState → Except SaiError NeighborState
  | [], s => Except.ok s
  | vlanDelta :: rest, s =>
    match processNeighborDeltas api vlanDelta.arpDelta s with
    | Except.ok s1 =>
      match processNeighborDeltas api vlanDelta.ndpDelta s1 with
      | Except.ok s2 => ProcessArpChanges api rest s2
      | Except.error e => Except.error e
    | Except.error e => Except.error e

/-! ## Routes (lines 669-768) -/

/-- Virtual router number (`RouterID`). -/
abbrev RouterID := Nat

/-- Route of the switch state (`RouteV4`, `RouteV6`): its network, mask length and
whether it is resolved (`isResolved()`). -/
structure Route where
  network : Nat
  mask : Nat
  resolved : Bool
deriving DecidableEq, Repr

/-- Calls into the route table (`routeTable_`). -/
inductive RouteTableCall where
  | AddRoute (id : RouterID) (route : Route)
  | DeleteRoute (id : RouterID) (route : Route)
deriving DecidableEq, Repr

/-- Model of `ProcessRemovedRoute`: the route table calls it issues. -/
def ProcessRemovedRoute (id : RouterID) (route : Route) : List RouteTableCall :=
  if !route.resolved then
    []
  else
    [RouteTableCall.DeleteRoute id route]

/-- Model of `ProcessChangedRoute`: the route table calls it issues. -/
def ProcessChangedRoute (id : RouterID) (oldRoute newRoute : Route) : List RouteTableCall :=
  if !newRoute.resolved then
    ProcessRemovedRoute id oldRoute
  else
    [RouteTableCall.AddRoute id newRoute]

/-- Model of `ProcessAddedRoute`: the route table calls it issues. -/
def ProcessAddedRoute (id : RouterID) (route : Route) : List RouteTableCall :=
  if !route.resolved then
    []
  else
    [RouteTableCall.AddRoute id route]

/-- One entry of the route tables delta: the old and new table (by their router
ID) and the per-family route deltas. -/
structure RouteTableDelta where
  table : DeltaValue RouterID
  routesV4Delta : List (DeltaValue Route)
  routesV6Delta : List (DeltaValue Route)
deriving DecidableEq, Repr

/-- The route table calls that `ProcessRemovedRoutes` attempts, in order. -/
def ProcessRemovedRoutes (routeTablesDelta : List RouteTableDelta) : List RouteTableCall :=
  match routeTablesDelta with
  | [] => []
  | rtDelta :: rest =>
    match rtDelta.table.getOld with
    | none => ProcessRemovedRoutes rest
    | some id =>
      forEachRemoved rtDelta.routesV4Delta (ProcessRemovedRoute id) ++
      forEachRemoved rtDelta.routesV6Delta (ProcessRemovedRoute id) ++
      ProcessRemovedRoutes rest

/-- The route table calls that `ProcessAddedChangedRoutes` attempts, in order.  The
handler for removed routes is the empty lambda. -/
def ProcessAddedChangedRoutes (routeTablesDelta : List RouteTableDelta) : List RouteTableCall :=
  match routeTablesDelta with
  | [] => []
  | rtDelta :: rest =>
    match rtDelta.table.getNew with
    | none => ProcessAddedChangedRoutes rest
    | some id =>
      forEachChanged3 rtDelta.routesV4Delta (ProcessChangedRoute id) (ProcessAddedRoute id)
        (fun _ => []) ++
      forEachChanged3 rtDelta.routesV6Delta (ProcessChangedRoute id) (ProcessAddedRoute id)
        (fun _ => []) ++
      ProcessAddedChangedRoutes rest

/-- Answer of the route table to a call, given the calls issued before: `none` is
a normal return, `some e` the `SaiError` thrown. -/
abbrev RouteTableApi := List RouteTableCall → RouteTableCall → Option SaiError

/-- Execution of a sequence of attempted route table calls: they are issued one
after the other until one throws; the exception leaves the whole sequence.
Returns the calls issued and the error, if any. -/
def issueRouteCalls (api : RouteTableApi) :
    List RouteTableCall → List RouteTableCall → List RouteTableCall × Option SaiError
  | issued, [] => (issued, none)
  | issued, c :: rest =>
    match api issued c with
    | some e => (issued ++ [c], some e)
    | none => issueRouteCalls api (issued ++ [c]) rest

/-! ## The reconciliation pass `stateChanged` (lines 313-401) -/

/-- Administrative state of a port (`cfg::PortState`). -/
inductive PortState where
  | DOWN
  | POWER_DOWN
  | UP
deriving DecidableEq, Repr

/-- Port node of the switch state (`Port`). -/
structure Port where
  id : PortID
  state : PortState
  ingressVlan : VlanID
  speed : Nat
deriving DecidableEq, Repr

/-- Interface node of the switch state (`Interface`). -/
structure Interface where
  id : InterfaceID
  vlanID : VlanID
  mac : MacAddress
  addresses : List IPAddress
deriving DecidableEq, Repr

/-- The parts of a `StateDelta` that `stateChanged` walks. -/
structure StateDelta where
  portsDelta : List (DeltaValue Port)
  routeTablesDelta : List RouteTableDelta
  intfsDelta : List (DeltaValue Interface)
  vlansDelta : List VlanDelta
deriving DecidableEq, Repr

/-- Invocation of one of the handlers that `stateChanged` calls, with its
arguments. -/
inductive HandlerCall where
  | ChangePortState (oldPort newPort : Port)
  | ProcessRemovedRoute (id : RouterID) (route : Route)
  | ProcessRemovedIntf (intf : Interface)
  | ProcessChangedVlan (oldVlan newVlan : Vlan)
  | ProcessAddedVlan (vlan : Vlan)
  | PreprocessRemovedVlan (vlan : Vlan)
  | UpdateIngressVlan (oldPort newPort : Port)
  | UpdatePortSpeed (oldPort newPort : Port)
  | ProcessChangedIntf (oldIntf newIntf : Interface)
  | ProcessRemovedVlan (vlan : Vlan)
  | ProcessAddedIntf (intf : Interface)
  | AddHostsForDemo
  | ProcessNeighborEntryDelta (delta : DeltaValue NeighborEntry)
  | ProcessChangedRoute (id : RouterID) (oldRoute newRoute : Route)
  | ProcessAddedRoute (id : RouterID) (route : Route)
deriving DecidableEq, Repr

/-- First lambda of `stateChanged` (lines 323-332): disable a port whose state
changed to DOWN or POWER_DOWN. -/
def disablePortFn (oldPort newPort : Port) : List HandlerCall :=
  if oldPort.state = newPort.state then
    []
  else if newPort.state = PortState.DOWN ∨ newPort.state = PortState.POWER_DOWN then
    [HandlerCall.ChangePortState oldPort newPort]
  else
    []

/-- Second lambda of `stateChanged` (lines 354-362): ingress VLAN, then speed. -/
def updatePortFn (oldPort newPort : Port) : List HandlerCall :=
  (if oldPort.ingressVlan ≠ newPort.ingressVlan then
    [HandlerCall.UpdateIngressVlan oldPort newPort] else []) ++
  (if oldPort.speed ≠ newPort.speed then
    [HandlerCall.UpdatePortSpeed oldPort newPort] else [])

/-- Third lambda of `stateChanged` (lines 385-394): enable a port whose state
changed to something other than DOWN and POWER_DOWN. -/
def enablePortFn (oldPort newPort : Port) : List HandlerCall :=
  if oldPort.state = newPort.state then
    []
  else if newPort.state ≠ PortState.DOWN ∧ newPort.state ≠ PortState.POWER_DOWN then
    [HandlerCall.ChangePortState oldPort newPort]
  else
    []

/-- Handler invocations of `ProcessRemovedRoutes(delta)`, in order. -/
def removedRoutesCalls (routeTablesDelta : List RouteTableDelta) : List HandlerCall :=
  match routeTablesDelta with
  | [] => []
  | rtDelta :: rest =>
    match rtDelta.table.getOld with
    | none => removedRoutesCalls rest
    | some id =>
      forEachRemoved rtDelta.routesV4Delta (fun r => [HandlerCall.ProcessRemovedRoute id r]) ++
      forEachRemoved rtDelta.routesV6Delta (fun r => [HandlerCall.ProcessRemovedRoute id r]) ++
      removedRoutesCalls rest

/-- Handler invocations of `ProcessArpChanges(delta)`, in order. -/
def arpChangesCalls (vlansDelta : List VlanDelta) : List HandlerCall :=
  match vlansDelta with
  | [] => []
  | vlanDelta :: rest =>
    vlanDelta.arpDelta.map HandlerCall.ProcessNeighborEntryDelta ++
    vlanDelta.ndpDelta.map HandlerCall.ProcessNeighborEntryDelta ++
    arpChangesCalls rest

/-- Handler invocations of `ProcessAddedChangedRoutes(delta)`, in order. -/
def addedChangedRoutesCalls (routeTablesDelta : List RouteTableDelta) : List HandlerCall :=
  match routeTablesDelta with
  | [] => []
  | rtDelta :: rest =>
    match rtDelta.table.getNew with
    | none => addedChangedRoutesCalls rest
    | some id =>
      forEachChanged3 rtDelta.routesV4Delta
        (fun o n => [HandlerCall.ProcessChangedRoute id o n])
        (fun n => [HandlerCall.ProcessAddedRoute id n]) (fun _ => []) ++
      forEachChanged3 rtDelta.routesV6Delta
        (fun o n => [HandlerCall.ProcessChangedRoute id o n])
        (fun n => [HandlerCall.ProcessAddedRoute id n]) (fun _ => []) ++
      addedChangedRoutesCalls rest

/-- The body of the `try` block of `stateChanged`: the handler invocations it
makes when every one of them returns, statement by statement. -/
def stateChangedBody (delta : StateDelta) : List HandlerCall :=
  forEachChanged delta.portsDelta disablePortFn ++
  removedRoutesCalls delta.routeTablesDelta ++
  forEachRemoved delta.intfsDelta (fun intf => [HandlerCall.ProcessRemovedIntf intf]) ++
  forEachChanged3 (delta.vlansDelta.map VlanDelta.vlan)
    (fun o n => [HandlerCall.ProcessChangedVlan o n])
    (fun n => [HandlerCall.ProcessAddedVlan n])
    (fun o => [HandlerCall.PreprocessRemovedVlan o]) ++
  forEachChanged delta.portsDelta updatePortFn ++
  forEachChanged delta.intfsDelta (fun o n => [HandlerCall.ProcessChangedIntf o n]) ++
  forEachRemoved (delta.vlansDelta.map VlanDelta.vlan)
    (fun o => [HandlerCall.ProcessRemovedVlan o]) ++
  forEachAdded delta.intfsDelta (fun intf => [HandlerCall.ProcessAddedIntf intf]) ++
  [HandlerCall.AddHostsForDemo] ++
  arpChangesCalls delta.vlansDelta ++
  addedChangedRoutesCalls delta.routeTablesDelta ++
  forEachChanged delta.portsDelta enablePortFn

/-- How a handler invocation ends: it returns, it lets a `SaiError` escape, or it
does not come back (a loop that never ends). -/
inductive HandlerOutcome where
  | returns
  | raises (e : SaiError)
  | noReturn
deriving DecidableEq, Repr

/-- What the tables and the hardware make of a handler invocation, given the
invocations before it. -/
abbrev HandlerEnv := List HandlerCall → HandlerCall → HandlerOutcome

/-- Outcome of a handler invocation.  `ChangePortState`, `UpdateIngressVlan` and
`ProcessAddedIntf` catch every `SaiError` themselves; `UpdatePortSpeed`,
`PreprocessRemovedVlan` and `ProcessRemovedVlan` contain no throwing statement and
no loop that depends on anything but their argument; these always return.  For
the others the environment decides. -/
def handlerOutcome (env : HandlerEnv) (done : List HandlerCall) (c : HandlerCall) :
    HandlerOutcome :=
  match c with
  | .ChangePortState _ _ => .returns
  | .UpdateIngressVlan _ _ => .returns
  | .UpdatePortSpeed _ _ => .returns
  | .PreprocessRemovedVlan _ => .returns
  | .ProcessRemovedVlan _ => .returns
  | .ProcessAddedIntf _ => .returns
  | _ => env done c

/-- Outcome of a run of `stateChanged`: the handler invocations made, whether control
comes back to the caller, and the `SaiError` that the catch block wrote to the log,
if any. -/
structure StateChangedResult where
  trace : List HandlerCall
  returned : Bool
  logged : Option SaiError
deriving DecidableEq, Repr

/-- Execution of the `try` block: the invocations are made in order; the first
`SaiError` that escapes a handler is caught by `catch (SaiError &e)`, logged, and
`stateChanged` returns; an invocation that does not come back ends the trace. -/
def runHandlers (env : HandlerEnv) :
    List HandlerCall → List HandlerCall → StateChangedResult
  | done, [] => { trace := done, returned := true, logged := none }
  | done, c :: rest =>
    match handlerOutcome env done c with
    | .returns => runHandlers env (done ++ [c]) rest
    | .raises e => { trace := done ++ [c], returned := true, logged := some e }
    | .noReturn => { trace := done ++ [c], returned := false, logged := none }

/-- Model of `stateChanged`. -/
def stateChanged (env : HandlerEnv) (delta : StateDelta) : StateChangedResult :=
  runHandlers env [] (stateChangedBody delta)

/-- Phase of `stateChanged` to which a handler invocation belongs, numbered in
source order. -/
def phaseOf : HandlerCall → Nat
  | .ChangePortState _ newPort =>
    if newPort.state = PortState.DOWN ∨ newPort.state = PortState.POWER_DOWN then 1 else 12
  | .ProcessRemovedRoute _ _ => 2
  | .ProcessRemovedIntf _ => 3
  | .ProcessChangedVlan _ _ => 4
  | .ProcessAddedVlan _ => 4
  | .PreprocessRemovedVlan _ => 4
  | .UpdateIngressVlan _ _ => 5
  | .UpdatePortSpeed _ _ => 5
  | .ProcessChangedIntf _ _ => 6
  | .ProcessRemovedVlan _ => 7
  | .ProcessAddedIntf _ => 8
  | .AddHostsForDemo => 9
  | .ProcessNeighborEntryDelta _ => 10
  | .ProcessChangedRoute _ _ _ => 11
  | .ProcessAddedRoute _ _ => 11

/-- The value computed for `action` in `refNewEntry`. -/
def newEntryAction (e : NeighborEntry) : sai_packet_action_t :=
  if e.pending then SAI_PACKET_ACTION_DROP else SAI_PACKET_ACTION_FORWARD

/-- A hardware that refuses every `SaiHost::Program` call. -/
def failingHostApi : HostProgramApi := fun _ _ _ => some ⟨1⟩

/-- A neighbor state with no host and an empty trace. -/
def emptyNeighborState : NeighborState := { hostTable := { refCount := fun _ => 0 }, trace := [] }

/-- A route table call is acceptable for the resolved-only rule when it is not an
upsert or when the route it carries is resolved. -/
def upsertResolved : RouteTableCall → Bool
  | .AddRoute _ route => route.resolved
  | .DeleteRoute _ _ => true

/-- A list of invocations in phase order whose phases are at most `k`. -/
def PhasesUpTo (k : Nat) (l : List HandlerCall) : Prop :=
  l.Pairwise (fun a b => phaseOf a ≤ phaseOf b) ∧ ∀ c ∈ l, phaseOf c ≤ k

/-- Resolver used in examples: every port resolves to a handle equal to its
number. -/
def resolveAll : GetSaiPortId := fun p => some p

/-! ## The VLAN creation path and the warm-boot cache (lines 770-940) -/

/-- Cached membership of a VLAN (`SaiWarmBootCache::VlanInfo`). -/
structure VlanInfo where
  vlan_ : VlanID
  ports_ : List sai_vlan_port_t
deriving DecidableEq, Repr

/-- Modelled from the spec: an entry of the warm-boot cache (`SaiWarmBootCache`,
not among the sources) is a `VlanInfo` with a programmed flag that starts
false. -/
structure CachedVlan where
  info : VlanInfo
  programmed : Bool
deriving DecidableEq, Repr

/-- Modelled from the spec: the VLAN part of the warm-boot cache, the map
`vlan2VlanInfo_` from VLAN ID to cached entry, as an association list. -/
structure SaiWarmBootCache where
  vlan2VlanInfo_ : List (VlanID × CachedVlan)
deriving DecidableEq, Repr

/-- Modelled from the spec: lookup of a VLAN ID in the map of the cache; the
first entry with the key is the entry of the VLAN. -/
def lookupCachedVlan : List (VlanID × CachedVlan) → VlanID → Option CachedVlan
  | [], _ => none
  | (k, entry) :: rest, vlan => if k = vlan then some entry else lookupCachedVlan rest vlan

/-- Modelled from the spec: `find(vlanID)` returns the cached `VlanInfo` of the
VLAN, or none (the end iterator). -/
def SaiWarmBootCache.findVlanInfo (cache : SaiWarmBootCache) (vlan : VlanID) :
    Option VlanInfo :=
  (lookupCachedVlan cache.vlan2VlanInfo_ vlan).map CachedVlan.info

/-- Modelled from the spec: `markProgrammed(entry)` sets the programmed flag of
the entry of the VLAN and keeps the entry in the cache. -/
def SaiWarmBootCache.programmed (cache : SaiWarmBootCache) (vlan : VlanID) :
    SaiWarmBootCache :=
  { vlan2VlanInfo_ := cache.vlan2VlanInfo_.map fun kv =>
      (kv.1, if kv.1 = vlan then { kv.2 with programmed := true } else kv.2) }

/-- Modelled from the spec: `add(vlanID, membership)` adds an entry, with the flag
at its start value, when the VLAN has none. -/
def SaiWarmBootCache.AddVlanInfo (cache : SaiWarmBootCache) (vlan : VlanID)
    (ports : List sai_vlan_port_t) : SaiWarmBootCache :=
  match cache.findVlanInfo vlan with
  | some _ => cache
  | none =>
    { vlan2VlanInfo_ := cache.vlan2VlanInfo_ ++ [(vlan, { info := ⟨vlan, ports⟩, programmed := false })] }

/-- Whether the entry of the VLAN exists and is marked programmed. -/
def SaiWarmBootCache.isProgrammed (cache : SaiWarmBootCache) (vlan : VlanID) : Bool :=
  match lookupCachedVlan cache.vlan2VlanInfo_ vlan with
  | some entry => entry.programmed
  | none => false

/-- The `for` loop of the lambda `is_equal`: index by index, the first difference
in handle or tagging mode answers false.  It is entered with two vectors of the
same size. -/
def is_equal_loop : List sai_vlan_port_t → List sai_vlan_port_t → Bool
  | n :: ns, e :: es =>
    if n.port_id ≠ e.port_id ∨ n.tagging_mode ≠ e.tagging_mode then false
    else is_equal_loop ns es
  | _, _ => true

/-- The lambda `is_equal` of `ProcessAddedVlan` (lines 885-906). -/
def is_equal (newVlan existingVlan : VlanInfo) : Bool :=
  if newVlan.vlan_ ≠ existingVlan.vlan_ ∨
      newVlan.ports_.length ≠ existingVlan.ports_.length then
    false
  else
    is_equal_loop newVlan.ports_ existingVlan.ports_

/-- What the VLAN handlers depend on outside `SaiSwitch.cpp`: the port table
lookup, the answers of the SAI VLAN API, and `fillVlanPortInfo`, which overwrites
the membership of a cloned VLAN with the one the cache holds for it. -/
structure VlanEnv where
  getSaiPortId : GetSaiPortId
  vlanApi : VlanApiCall → sai_status_t
  fillVlanPortInfo : SaiWarmBootCache → Vlan → Vlan

/-- State threaded through the VLAN handlers: the warm-boot cache and the SAI
VLAN calls issued so far. -/
structure VlanState where
  cache : SaiWarmBootCache
  calls : List VlanApiCall
deriving DecidableEq, Repr

/-- How a VLAN handler ends when it ends: the state it leaves and the `SaiError`
it throws, if any. -/
structure VlanOutcome where
  state : VlanState
  error : Option SaiError
deriving DecidableEq, Repr

/-- Lines 827-842 of `ProcessChangedVlan`: the calls that apply a computed diff.
A status other than success is only logged. -/
def applyVlanDiff (vlanApi : VlanApiCall → sai_status_t) (vlanId : VlanID)
    (addedPorts removedPorts : List sai_vlan_port_t) : List VlanApiCall :=
  let removeCalls :=
    if removedPorts.length > 0 then
      let call := VlanApiCall.remove_ports_from_vlan vlanId removedPorts
      let _saiStatus := vlanApi call
      [call]
    else []
  let addCalls :=
    if addedPorts.length > 0 then
      let call := VlanApiCall.add_ports_to_vlan vlanId addedPorts
      let _saiStatus := vlanApi call
      [call]
    else []
  removeCalls ++ addCalls

mutual

/-- Model of `ProcessChangedVlan`.  `fuel` bounds the evaluations of the loop condition
and the depth of the calls between the two handlers; `none` means that the
handler was still running when the fuel ran out. -/
def ProcessChangedVlan (env : VlanEnv) :
    Nat → Vlan → Vlan → VlanState → Option VlanOutcome
  | 0, _, _, _ => none
  | fuel + 1, oldVlan, newVlan, s =>
    let vlanId := newVlan.id
    match mergeLoop env.getSaiPortId fuel (mergeInit oldVlan newVlan) with
    | none => none
    | some m =>
      let s1 : VlanState :=
        { s with calls := s.calls ++ applyVlanDiff env.vlanApi vlanId m.addedPorts m.removedPorts }
      if m.addedPorts.length = 0 ∧ m.removedPorts.length = 0 then
        -- Nothing changed means that it's new VLAN
        ProcessAddedVlan env fuel newVlan s1
      else
        some { state := s1, error := none }

/-- Model of `ProcessAddedVlan`. -/
def ProcessAddedVlan (env : VlanEnv) : Nat → Vlan → VlanState → Option VlanOutcome
  | 0, _, _ => none
  | fuel + 1, vlan, s =>
    let vlanId := vlan.id
    let portList := buildPortList env.getSaiPortId vlan.ports
    match s.cache.findVlanInfo vlan.id with
    | some existingVlan =>
      if !is_equal ⟨vlan.id, portList⟩ existingVlan then
        let oldVlan := env.fillVlanPortInfo s.cache vlan
        match ProcessChangedVlan env fuel oldVlan vlan s with
        | none => none
        | some r =>
          match r.error with
          | some e => some { state := r.state, error := some e }
          | none =>
            some { state := { r.state with cache := r.state.cache.programmed vlan.id },
                   error := none }
      else
        some { state := { s with cache := s.cache.programmed vlan.id }, error := none }
    | none =>
      let createCall := VlanApiCall.create_vlan vlanId
      let s1 : VlanState := { s with calls := s.calls ++ [createCall] }
      if env.vlanApi createCall ≠ SAI_STATUS_SUCCESS then
        some { state := s1, error := some ⟨vlanId⟩ }
      else
        let addCall := VlanApiCall.add_ports_to_vlan vlanId portList
        let s2 : VlanState := { s1 with calls := s1.calls ++ [addCall] }
        if env.vlanApi addCall ≠ SAI_STATUS_SUCCESS then
          some { state := s2, error := some ⟨vlanId⟩ }
        else
          some { state := { s2 with cache := s2.cache.AddVlanInfo vlan.id portList },
                 error := none }

end

/-- Insertion into a `Vlan::MemberPorts` map: the list stays in ascending port ID
order and a port that is already a member keeps its entry. -/
def insertMemberPort (entry : PortID × Bool) : MemberPorts → MemberPorts
  | [] => [entry]
  | m :: rest =>
    if entry.1 < m.1 then entry :: m :: rest
    else if entry.1 = m.1 then m :: rest
    else m :: insertMemberPort entry rest

/-- Modelled from the spec: `fillVlanPortInfo` synthesizes the cached membership
as the membership of the old VLAN; each cached member becomes the logical port
that the port table (`GetPortId`) gives for its handle, tagged when its tagging
mode is tagged.  A VLAN without cache entry is left as it is. -/
def fillVlanPortInfoFrom (getPortId : sai_object_id_t → PortID) (cache : SaiWarmBootCache)
    (vlan : Vlan) : Vlan :=
  match cache.findVlanInfo vlan.id with
  | none => vlan
  | some info =>
    { vlan with
      ports := info.ports_.foldl
        (fun ports vp =>
          insertMemberPort (getPortId vp.port_id, decide (vp.tagging_mode = some SAI_VLAN_PORT_TAGGED))
            ports) [] }

/-- Environment used in examples: every port resolves to the handle equal to its
number and back, and every SAI VLAN call succeeds. -/
def exampleVlanEnv : VlanEnv :=
  { getSaiPortId := resolveAll
    vlanApi := fun _ => SAI_STATUS_SUCCESS
    fillVlanPortInfo := fillVlanPortInfoFrom id }

/-- A VLAN state with an empty cache and no call issued. -/
def emptyVlanState : VlanState := { cache := { vlan2VlanInfo_ := [] }, calls := [] }

/-- A VLAN state whose cache holds one unprogrammed entry for the VLAN. -/
def cachedVlanState (vlan : VlanID) (ports : List sai_vlan_port_t) : VlanState :=
  { cache := { vlan2VlanInfo_ := [(vlan, { info := ⟨vlan, ports⟩, programmed := false })] },
    calls := [] }

/-- Environment used in examples: as `exampleVlanEnv`, but the hardware refuses
`create_vlan`. -/
def createFailsVlanEnv : VlanEnv :=
  { getSaiPortId := resolveAll
    vlanApi := fun call =>
      match call with
      | .create_vlan _ => -1
      | _ => SAI_STATUS_SUCCESS
    fillVlanPortInfo := fillVlanPortInfoFrom id }

/-- What `stateChanged` hands back to its caller.  The function is `void`: a
caller that gets control back gets no value, whether or not a `SaiError` was
caught on the way; `none` stands for a call that never gives control back. -/
def StateChangedResult.toCaller (r : StateChangedResult) : Option Unit :=
  if r.returned then some () else none

/-- The handlers of the phases that follow the changed-interface phase:
removed VLANs, added interfaces, demo hosts, neighbor entries, added and
changed routes, port enable. -/
def isAfterChangedIntf : HandlerCall → Bool
  | .ProcessRemovedVlan _ => true
  | .ProcessAddedIntf _ => true
  | .AddHostsForDemo => true
  | .ProcessNeighborEntryDelta _ => true
  | .ProcessChangedRoute _ _ _ => true
  | .ProcessAddedRoute _ _ => true
  | .ChangePortState _ newPort =>
    decide (newPort.state ≠ PortState.DOWN ∧ newPort.state ≠ PortState.POWER_DOWN)
  | _ => false

/-- Environment used in examples: `ProcessChangedIntf` raises, every other handler
returns. -/
def changedIntfFailsEnv : HandlerEnv := fun _ c =>
  match c with
  | .ProcessChangedIntf _ _ => HandlerOutcome.raises ⟨3⟩
  | _ => HandlerOutcome.returns

/-- Delta used in examples: port 1 goes down, port 2 comes up, a route is
removed and one added, interface 3 changes and interface 2 is added, VLAN 1
loses its member and VLAN 2 is removed, one neighbor entry is added. -/
def exampleDelta : StateDelta :=
  { portsDelta := [.changed ⟨1, .UP, 1, 10⟩ ⟨1, .DOWN, 1, 10⟩,
      .changed ⟨2, .DOWN, 1, 10⟩ ⟨2, .UP, 1, 10⟩]
    routeTablesDelta := [⟨.changed 0 0, [.removed ⟨1, 8, true⟩, .added ⟨2, 8, true⟩], []⟩]
    intfsDelta := [.changed ⟨3, 1, 1, []⟩ ⟨3, 2, 1, []⟩, .added ⟨2, 1, 1, []⟩]
    vlansDelta := [⟨.changed ⟨1, [(1, false)]⟩ ⟨1, []⟩, [.added ⟨1, 2, 3, false⟩], []⟩,
      ⟨.removed ⟨2, []⟩, [], []⟩] }

/-! ## The interface table (`SaiIntfTable.cpp`) -/

/-- Lookup in a map kept as an association list (`find`). -/
def mapFind {β : Type} (k : Nat) : List (Nat × β) → Option β
  | [] => none
  | (k', v) :: rest => if k' = k then some v else mapFind k rest

/-- Placement of a new key in a list kept in ascending key order. -/
def mapOrderedInsert {β : Type} (k : Nat) (v : β) : List (Nat × β) → List (Nat × β)
  | [] => [(k, v)]
  | (k', v') :: rest =>
    if k < k' then (k, v) :: (k', v') :: rest else (k', v') :: mapOrderedInsert k v rest

/-- The map operation `insert`: a key that is already present keeps its value and
the second component is false; otherwise the pair is added and the second
component is true. -/
def mapInsert {β : Type} (k : Nat) (v : β) (m : List (Nat × β)) : List (Nat × β) × Bool :=
  match mapFind k m with
  | some _ => (m, false)
  | none => (mapOrderedInsert k v m, true)

/-- The map operation `erase` by key. -/
def mapErase {β : Type} (k : Nat) (m : List (Nat × β)) : List (Nat × β) :=
  m.filter fun kv => kv.1 ≠ k

/-- Overwriting the value stored under a key, for an object that is changed in
place. -/
def mapSet {β : Type} (k : Nat) (v : β) (m : List (Nat × β)) : List (Nat × β) :=
  m.map fun kv => if kv.1 = k then (kv.1, v) else kv

/-- The null handle. -/
def SAI_NULL_OBJECT_ID : sai_object_id_t := 0

/-- An interface object (`SaiIntf`): the address at which it was allocated, which
is what a `SaiIntf*` holds, and its hardware handle (`GetIfId()`), null until the
interface is programmed. -/
structure SaiIntf where
  addr : Nat
  saiIfId_ : sai_object_id_t
deriving DecidableEq, Repr

/-- The method `SaiIntf::Program` (class not among the sources), as a parameter:
from the handle the object holds and the interface to program, the handle it
holds afterwards and the `SaiError` thrown, if any. -/
abbrev SaiIntfProgram := sai_object_id_t → Interface → sai_object_id_t × Option SaiError

/-- Calls that leave the interface table: `SaiIntf::Program` on the object at an
address. -/
inductive IntfCall where
  | Program (addr : Nat) (intf : Interface)
deriving DecidableEq, Repr

/-- The interface table (`SaiIntfTable`): the owning map `intfs_` from interface ID
to object and the map `saiIntfs_` from hardware handle to object pointer. -/
structure SaiIntfTable where
  intfs_ : List (InterfaceID × SaiIntf)
  saiIntfs_ : List (sai_object_id_t × Nat)
deriving DecidableEq, Repr

/-- How a table operation ends: it returns, it throws a `SaiError`, or a `CHECK`
fails and the process is aborted. -/
inductive IntfOutcome where
  | ok
  | error (e : SaiError)
  | checkFailed
deriving DecidableEq, Repr

/-- Result of a table operation: the table afterwards, the calls made, and how it
ended. -/
structure IntfResult where
  table : SaiIntfTable
  calls : List IntfCall
  outcome : IntfOutcome
deriving DecidableEq, Repr

/-- Model of `GetIntfIf(InterfaceID)`: the object of the interface, or null. -/
def SaiIntfTable.GetIntfIf (t : SaiIntfTable) (id : InterfaceID) : Option SaiIntf :=
  mapFind id t.intfs_

/-- Model of `GetIntfIf(sai_object_id_t)`: the pointer stored for the handle, or null. -/
def SaiIntfTable.GetIntfIfSai (t : SaiIntfTable) (id : sai_object_id_t) : Option Nat :=
  mapFind id t.saiIntfs_

/-- Address given to the next object: one past the largest address of a live
object. -/
def SaiIntfTable.freshAddr (t : SaiIntfTable) : Nat :=
  (t.intfs_.map fun kv => kv.2.addr).foldr max 0 + 1

/-- Model of `SaiIntfTable::AddIntf`. -/
def SaiIntfTable.AddIntf (program : SaiIntfProgram) (t : SaiIntfTable) (intf : Interface) :
    IntfResult :=
  let newIntf : SaiIntf := { addr := t.freshAddr, saiIfId_ := SAI_NULL_OBJECT_ID }
  let ret := mapInsert intf.id newIntf t.intfs_
  if !ret.2 then
    { table := t, calls := [], outcome := .error ⟨intf.id⟩ }
  else
    -- intfPtr->Program(intf) acts on the object that the map now owns
    let programResult := program newIntf.saiIfId_ intf
    let programmed : SaiIntf := { newIntf with saiIfId_ := programResult.1 }
    let t1 : SaiIntfTable := { t with intfs_ := mapSet intf.id programmed ret.1 }
    match programResult.2 with
    | some e => { table := t1, calls := [.Program newIntf.addr intf], outcome := .error e }
    | none =>
      let ret2 := mapInsert programmed.saiIfId_ programmed.addr t1.saiIntfs_
      { table := { t1 with saiIntfs_ := ret2.1 }
        calls := [.Program newIntf.addr intf]
        outcome := if ret2.2 then .ok else .checkFailed }

/-- Model of `SaiIntfTable::ProgramIntf`. -/
def SaiIntfTable.ProgramIntf (program : SaiIntfProgram) (t : SaiIntfTable) (intf : Interface) :
    IntfResult :=
  match t.GetIntfIf intf.id with
  | none => { table := t, calls := [], outcome := .error ⟨intf.id⟩ }
  | some intfPtr =>
    let programResult := program intfPtr.saiIfId_ intf
    let programmed : SaiIntf := { intfPtr with saiIfId_ := programResult.1 }
    { table := { t with intfs_ := mapSet intf.id programmed t.intfs_ }
      calls := [.Program intfPtr.addr intf]
      outcome :=
        match programResult.2 with
        | some e => .error e
        | none => .ok }

/-- Model of `SaiIntfTable::DeleteIntf`. -/
def SaiIntfTable.DeleteIntf (t : SaiIntfTable) (intf : Interface) : IntfResult :=
  match mapFind intf.id t.intfs_ with
  | none => { table := t, calls := [], outcome := .error ⟨intf.id⟩ }
  | some obj =>
    let saiIfId := obj.saiIfId_
    { table := { intfs_ := mapErase intf.id t.intfs_, saiIntfs_ := mapErase saiIfId t.saiIntfs_ }
      calls := []
      outcome := .ok }

/-- The two indices are mutual inverses: every interface ID with an object has
the handle of that object mapped to that object, and every handle in the
second index is the handle of the object it points to, which some interface ID
owns. -/
def SaiIntfTable.mutualInverses (t : SaiIntfTable) : Bool :=
  (t.intfs_.all fun kv => decide (mapFind kv.2.saiIfId_ t.saiIntfs_ = some kv.2.addr)) &&
  (t.saiIntfs_.all fun hp =>
    t.intfs_.any fun kv => decide (kv.2.addr = hp.2 ∧ kv.2.saiIfId_ = hp.1))

/-- The empty interface table. -/
def emptyIntfTable : SaiIntfTable := { intfs_ := [], saiIntfs_ := [] }

/-- A hardware that refuses to program any interface: the handle stays what it
was and a `SaiError` is thrown. -/
def failingIntfProgram : SaiIntfProgram := fun handle _ => (handle, some ⟨7⟩)

/-- A hardware that programs every interface: a new object gets the handle
100 + interface ID, a programmed object keeps its handle. -/
def workingIntfProgram : SaiIntfProgram := fun handle intf =>
  (if handle = SAI_NULL_OBJECT_ID then 100 + intf.id else handle, none)

/-! ## The cold-boot state (`GetColdBootSwitchState`, lines 146-167) -/

/-- The port table lookup `portTable_->GetPortId`, from hardware handle to logical
port; `none` stands for the `SaiError` it throws on an unknown handle. -/
abbrev GetPortId := sai_object_id_t → Option PortID

/-- The conversion `PortID(saiPort)` of line 161: the 64-bit handle is narrowed to
the 16 bits of a `PortID`. -/
def portIDOfHandle (saiPort : sai_object_id_t) : PortID := saiPort % 2 ^ 16

/-- Modelled from the spec: `SwitchState::registerPort` adds a port to the port map
of the state, which is keyed by port ID; the map is the list of its keys in
ascending order, and a port that is already registered stays as it is. -/
def registerPort (portID : PortID) : List PortID → List PortID
  | [] => [portID]
  | p :: rest =>
    if portID < p then portID :: p :: rest
    else if portID = p then p :: rest
    else p :: registerPort portID rest

/-- The parts of a `SwitchState` that `GetColdBootSwitchState` fills: the registered
ports and the VLANs. -/
structure SwitchState where
  ports : List PortID
  vlans : List Vlan
deriving DecidableEq, Repr

/-- The `for` loop of `GetColdBootSwitchState` over `saiPortList_`, started with the
ports registered and the members inserted so far. -/
def coldBootLoop (getPortId : GetPortId) :
    List sai_object_id_t → List PortID → MemberPorts →
      Except SaiError (List PortID × MemberPorts)
  | [], ports, memberPorts => Except.ok (ports, memberPorts)
  | saiPort :: rest, ports, memberPorts =>
    match getPortId saiPort with
    | none => Except.error ⟨saiPort⟩
    | some portID =>
      coldBootLoop getPortId rest (registerPort portID ports)
        (insertMemberPort (portIDOfHandle saiPort, false) memberPorts)

/-- Model of `GetColdBootSwitchState`: the state it returns, or the `SaiError` that
leaves it. -/
def GetColdBootSwitchState (getPortId : GetPortId) (saiPortList_ : List sai_object_id_t) :
    Except SaiError SwitchState :=
  match coldBootLoop getPortId saiPortList_ [] [] with
  | Except.error e => Except.error e
  | Except.ok (ports, memberPorts) =>
    let vlan : Vlan := { id := 1, ports := memberPorts }
    Except.ok { ports := ports, vlans := [vlan] }

/-- A port table that gives the hardware ports with handles 5, 6, ... the
logical ports 1, 2, ... -/
def examplePortTable : GetPortId := fun saiPort => some (saiPort - 4)

/-- Whether a SAI VLAN call is a `remove_ports_from_vlan`. -/
def isRemovePortsCall : VlanApiCall → Bool
  | .remove_ports_from_vlan _ _ => true
  | _ => false

/-! ## Theorems -/

/-- In the removal branch with a resolvable port the body leaves both iterators
where they were. -/
theorem mergeStep_removal_resolved (g : GetSaiPortId) (o n : PortID × Bool)
    (os ns : MemberPorts) (a r : List sai_vlan_port_t) (p : sai_object_id_t)
    (hlt : o.1 < n.1) (hres : g o.1 = some p) :
    mergeStep g ⟨o :: os, n :: ns, a, r⟩ = some ⟨o :: os, n :: ns, a, r ++ [⟨p, none⟩]⟩ := by
  have h1 : ¬ n.1 < o.1 := Nat.lt_asymm hlt
  simp [mergeStep, h1, hlt, hres]

/-- Once the loop reaches the removal branch with a resolvable port it never
leaves it. -/
theorem mergeLoop_removal_stuck (g : GetSaiPortId) (o n : PortID × Bool)
    (os ns : MemberPorts) (p : sai_object_id_t)
    (hlt : o.1 < n.1) (hres : g o.1 = some p) :
    ∀ (fuel : Nat) (a r : List sai_vlan_port_t),
      mergeLoop g fuel ⟨o :: os, n :: ns, a, r⟩ = none := by
  intro fuel
  induction fuel with
  | zero => intro a r; rfl
  | succ k ih =>
    intro a r
    simp only [mergeLoop, mergeStep_removal_resolved g o n os ns a r p hlt hres]
    exact ih a _

/-- In the removal branch with a resolvable port every further execution of the
body only appends to `removedPorts`. -/
theorem mergeIter_removal_stuck (g : GetSaiPortId) (o n : PortID × Bool)
    (os ns : MemberPorts) (p : sai_object_id_t)
    (hlt : o.1 < n.1) (hres : g o.1 = some p) :
    ∀ (k : Nat) (a r : List sai_vlan_port_t),
      mergeIter g k ⟨o :: os, n :: ns, a, r⟩ =
        some ⟨o :: os, n :: ns, a, r ++ List.replicate k ⟨p, none⟩⟩ := by
  intro k
  induction k with
  | zero => intro a r; simp [mergeIter]
  | succ k ih =>
    intro a r
    simp only [mergeIter, mergeStep_removal_resolved g o n os ns a r p hlt hres]
    rw [ih a _, List.replicate_succ, List.append_assoc]
    rfl

/-- C1 (code defect): the membership diff of `ProcessChangedVlan` is not the
set difference the claim describes.  On the example of the spec, old = {1
untagged, 3 tagged} and new = {2 untagged, 3 tagged} with every port
resolvable, the merge loop never leaves, whatever the fuel, so no added or
removed list is produced; and a port that remains in the new list after the
old list is exhausted (old = {1}, new = {1, 2}, or old empty) is not reported
as added, the loop stops with both lists empty. -/
theorem ProcessChangedVlan_diff_defect :
    (∀ fuel : Nat,
      ProcessChangedVlan_diff resolveAll fuel ⟨10, [(1, false), (3, true)]⟩
        ⟨10, [(2, false), (3, true)]⟩ = none) ∧
    (∀ fuel : Nat,
      ProcessChangedVlan_diff resolveAll (fuel + 2) ⟨10, [(1, false)]⟩
        ⟨10, [(1, false), (2, false)]⟩ = some ([], [])) ∧
    (∀ fuel : Nat,
      ProcessChangedVlan_diff resolveAll (fuel + 1) ⟨10, []⟩ ⟨10, [(2, false)]⟩ =
        some ([], [])) := by
  refine ⟨?_, ?_, ?_⟩
  · intro fuel
    have h := mergeLoop_removal_stuck resolveAll (1, false) (2, false) [(3, true)] [(3, true)] 1
      (by decide) rfl fuel [] []
    simp [ProcessChangedVlan_diff, mergeInit, h]
  · intro fuel
    simp [ProcessChangedVlan_diff, mergeInit, mergeLoop, mergeStep]
  · intro fuel
    simp [ProcessChangedVlan_diff, mergeInit, mergeLoop, mergeStep]

/-- C2 (code defect): the merge loop of `ProcessChangedVlan` does not terminate on
every input.  With old = {1, 3}, new = {2, 3} and every port resolvable, after
any number `k` of executions of the body both iterators are still at their
first element and `removedPorts` holds `k` copies of port 1: the removal branch
pushes the port and does not advance the old iterator, so the loop exceeds the
bound of |old| + |new| = 4 iterations. -/
theorem mergeLoop_removal_branch_does_not_advance :
    ∀ k : Nat,
      mergeIter resolveAll k (mergeInit ⟨10, [(1, false), (3, true)]⟩
          ⟨10, [(2, false), (3, true)]⟩) =
        some ⟨[(1, false), (3, true)], [(2, false), (3, true)], [],
          List.replicate k ⟨1, none⟩⟩ := by
  intro k
  have h := mergeIter_removal_stuck resolveAll (1, false) (2, false) [(3, true)] [(3, true)] 1
    (by decide) rfl k [] []
  simpa [mergeInit] using h

/-- C3 (code defect): `PreprocessRemovedVlan` does delete the VLAN.  For every
removed VLAN it issues the remove-ports call for the resolvable membership and
then the `remove_vlan` call, whatever the hardware answers, while the later
handler `ProcessRemovedVlan` issues no call at all; so the VLAN object is gone
before the port and interface phases run.  Example: VLAN 5 with member port 1
untagged. -/
theorem PreprocessRemovedVlan_issues_remove_vlan (g : GetSaiPortId)
    (vlanApi : VlanApiCall → sai_status_t) (vlan : Vlan) :
    PreprocessRemovedVlan g vlanApi vlan =
      [VlanApiCall.remove_ports_from_vlan vlan.id (buildPortList g vlan.ports),
       VlanApiCall.remove_vlan vlan.id] ∧
    ProcessRemovedVlan vlan = Except.ok [] ∧
    PreprocessRemovedVlan resolveAll (fun _ => SAI_STATUS_SUCCESS) ⟨5, [(1, false)]⟩ =
      [VlanApiCall.remove_ports_from_vlan 5 [⟨1, some SAI_VLAN_PORT_UNTAGGED⟩],
       VlanApiCall.remove_vlan 5] := by
  refine ⟨rfl, rfl, ?_⟩
  decide

/-! ### Phase order of `stateChanged` -/

theorem mem_forEachChanged {α β : Type} (f : α → α → List β) (x : β) :
    ∀ delta : List (DeltaValue α), x ∈ forEachChanged delta f → ∃ o n, x ∈ f o n := by
  intro delta
  induction delta with
  | nil => intro h; simp [forEachChanged] at h
  | cons d rest ih =>
    intro h
    cases d with
    | added n => exact ih (by simpa [forEachChanged] using h)
    | removed o => exact ih (by simpa [forEachChanged] using h)
    | changed o n =>
      simp only [forEachChanged, List.mem_append] at h
      rcases h with h | h
      · exact ⟨o, n, h⟩
      · exact ih h

theorem mem_forEachChanged3 {α β : Type} (f : α → α → List β) (g h : α → List β) (x : β) :
    ∀ delta : List (DeltaValue α), x ∈ forEachChanged3 delta f g h →
      (∃ o n, x ∈ f o n) ∨ (∃ n, x ∈ g n) ∨ (∃ o, x ∈ h o) := by
  intro delta
  induction delta with
  | nil => intro hx; simp [forEachChanged3] at hx
  | cons d rest ih =>
    intro hx
    cases d with
    | added n =>
      simp only [forEachChanged3, List.mem_append] at hx
      rcases hx with hx | hx
      · exact Or.inr (Or.inl ⟨n, hx⟩)
      · exact ih hx
    | removed o =>
      simp only [forEachChanged3, List.mem_append] at hx
      rcases hx with hx | hx
      · exact Or.inr (Or.inr ⟨o, hx⟩)
      · exact ih hx
    | changed o n =>
      simp only [forEachChanged3, List.mem_append] at hx
      rcases hx with hx | hx
      · exact Or.inl ⟨o, n, hx⟩
      · exact ih hx

theorem mem_forEachAdded {α β : Type} (f : α → List β) (x : β) :
    ∀ delta : List (DeltaValue α), x ∈ forEachAdded delta f → ∃ n, x ∈ f n := by
  intro delta
  induction delta with
  | nil => intro h; simp [forEachAdded] at h
  | cons d rest ih =>
    intro h
    cases d with
    | added n =>
      simp only [forEachAdded, List.mem_append] at h
      rcases h with h | h
      · exact ⟨n, h⟩
      · exact ih h
    | removed o => exact ih (by simpa [forEachAdded] using h)
    | changed o n => exact ih (by simpa [forEachAdded] using h)

theorem mem_forEachRemoved {α β : Type} (f : α → List β) (x : β) :
    ∀ delta : List (DeltaValue α), x ∈ forEachRemoved delta f → ∃ o, x ∈ f o := by
  intro delta
  induction delta with
  | nil => intro h; simp [forEachRemoved] at h
  | cons d rest ih =>
    intro h
    cases d with
    | added n => exact ih (by simpa [forEachRemoved] using h)
    | removed o =>
      simp only [forEachRemoved, List.mem_append] at h
      rcases h with h | h
      · exact ⟨o, h⟩
      · exact ih h
    | changed o n => exact ih (by simpa [forEachRemoved] using h)

/-- Every invocation of the first port pass is a port disable. -/
theorem phaseOf_disable (delta : List (DeltaValue Port)) (c : HandlerCall)
    (h : c ∈ forEachChanged delta disablePortFn) : phaseOf c = 1 := by
  obtain ⟨o, n, hc⟩ := mem_forEachChanged _ _ _ h
  unfold disablePortFn at hc
  split_ifs at hc with h1 h2
  · simp at hc
  · simp at hc; subst hc; simp [phaseOf, h2]
  · simp at hc

/-- Every invocation of the last port pass is a port enable. -/
theorem phaseOf_enable (delta : List (DeltaValue Port)) (c : HandlerCall)
    (h : c ∈ forEachChanged delta enablePortFn) : phaseOf c = 12 := by
  obtain ⟨o, n, hc⟩ := mem_forEachChanged _ _ _ h
  unfold enablePortFn at hc
  split_ifs at hc with h1 h2
  · simp at hc
  · simp at hc; subst hc
    have h3 : ¬ (n.state = PortState.DOWN ∨ n.state = PortState.POWER_DOWN) := by
      rintro (h | h)
      · exact h2.1 h
      · exact h2.2 h
    simp [phaseOf, h3]
  · simp at hc

theorem phaseOf_updatePort (delta : List (DeltaValue Port)) (c : HandlerCall)
    (h : c ∈ forEachChanged delta updatePortFn) : phaseOf c = 5 := by
  obtain ⟨o, n, hc⟩ := mem_forEachChanged _ _ _ h
  unfold updatePortFn at hc
  simp only [List.mem_append] at hc
  rcases hc with hc | hc
  · split_ifs at hc
    · simp at hc; subst hc; rfl
    · simp at hc
  · split_ifs at hc
    · simp at hc; subst hc; rfl
    · simp at hc

theorem phaseOf_removedRoutes (c : HandlerCall) :
    ∀ rts : List RouteTableDelta, c ∈ removedRoutesCalls rts → phaseOf c = 2 := by
  intro rts
  induction rts with
  | nil => intro h; simp [removedRoutesCalls] at h
  | cons d rest ih =>
    intro h
    unfold removedRoutesCalls at h
    split at h
    · exact ih h
    · simp only [List.mem_append] at h
      rcases h with (h | h) | h
      · obtain ⟨r, hr⟩ := mem_forEachRemoved _ _ _ h
        simp at hr; subst hr; rfl
      · obtain ⟨r, hr⟩ := mem_forEachRemoved _ _ _ h
        simp at hr; subst hr; rfl
      · exact ih h

theorem phaseOf_arpChanges (c : HandlerCall) :
    ∀ vs : List VlanDelta, c ∈ arpChangesCalls vs → phaseOf c = 10 := by
  intro vs
  induction vs with
  | nil => intro h; simp [arpChangesCalls] at h
  | cons d rest ih =>
    intro h
    simp only [arpChangesCalls, List.mem_append, List.mem_map] at h
    rcases h with (⟨x, _, hx⟩ | ⟨x, _, hx⟩) | h
    · subst hx; rfl
    · subst hx; rfl
    · exact ih h

theorem phaseOf_addedChangedRoutes (c : HandlerCall) :
    ∀ rts : List RouteTableDelta, c ∈ addedChangedRoutesCalls rts → phaseOf c = 11 := by
  intro rts
  induction rts with
  | nil => intro h; simp [addedChangedRoutesCalls] at h
  | cons d rest ih =>
    intro h
    unfold addedChangedRoutesCalls at h
    split at h
    · exact ih h
    · simp only [List.mem_append] at h
      rcases h with (h | h) | h
      · rcases mem_forEachChanged3 _ _ _ _ _ h with ⟨o, n, hr⟩ | ⟨n, hr⟩ | ⟨o, hr⟩
        · simp at hr; subst hr; rfl
        · simp at hr; subst hr; rfl
        · simp at hr
      · rcases mem_forEachChanged3 _ _ _ _ _ h with ⟨o, n, hr⟩ | ⟨n, hr⟩ | ⟨o, hr⟩
        · simp at hr; subst hr; rfl
        · simp at hr; subst hr; rfl
        · simp at hr
      · exact ih h

theorem PhasesUpTo.append {k m : Nat} {a b : List HandlerCall} (ha : PhasesUpTo k a)
    (hkm : k ≤ m) (hb : ∀ c ∈ b, phaseOf c = m) : PhasesUpTo m (a ++ b) := by
  refine ⟨?_, ?_⟩
  · rw [List.pairwise_append]
    refine ⟨ha.1, ?_, ?_⟩
    · rw [List.pairwise_iff_forall_sublist]
      intro x y hxy
      have hx : x ∈ b := hxy.subset (by simp)
      have hy : y ∈ b := hxy.subset (by simp)
      rw [hb x hx, hb y hy]
    · intro x hx y hy
      rw [hb y hy]
      exact le_trans (ha.2 x hx) hkm
  · intro c hc
    rcases List.mem_append.1 hc with h | h
    · exact le_trans (ha.2 c h) hkm
    · exact le_of_eq (hb c h)

/-- The body of `stateChanged` lists its invocations in phase order. -/
theorem stateChangedBody_phases (delta : StateDelta) :
    (stateChangedBody delta).Pairwise (fun a b => phaseOf a ≤ phaseOf b) := by
  have h0 : PhasesUpTo 1 ([] : List HandlerCall) := ⟨List.Pairwise.nil, by simp⟩
  have h1 := h0.append (le_refl 1) (phaseOf_disable delta.portsDelta)
  have h2 := h1.append (by decide : 1 ≤ 2) (fun c => phaseOf_removedRoutes c delta.routeTablesDelta)
  have h3 := h2.append (by decide : 2 ≤ 3)
    (b := forEachRemoved delta.intfsDelta (fun intf => [HandlerCall.ProcessRemovedIntf intf]))
    (by
      intro c hc
      obtain ⟨o, ho⟩ := mem_forEachRemoved _ _ _ hc
      simp at ho; subst ho; rfl)
  have h4 := h3.append (by decide : 3 ≤ 4)
    (b := forEachChanged3 (delta.vlansDelta.map VlanDelta.vlan)
      (fun o n => [HandlerCall.ProcessChangedVlan o n])
      (fun n => [HandlerCall.ProcessAddedVlan n])
      (fun o => [HandlerCall.PreprocessRemovedVlan o]))
    (by
      intro c hc
      rcases mem_forEachChanged3 _ _ _ _ _ hc with ⟨o, n, hr⟩ | ⟨n, hr⟩ | ⟨o, hr⟩
      · simp at hr; subst hr; rfl
      · simp at hr; subst hr; rfl
      · simp at hr; subst hr; rfl)
  have h5 := h4.append (by decide : 4 ≤ 5) (phaseOf_updatePort delta.portsDelta)
  have h6 := h5.append (by decide : 5 ≤ 6)
    (b := forEachChanged delta.intfsDelta (fun o n => [HandlerCall.ProcessChangedIntf o n]))
    (by
      intro c hc
      obtain ⟨o, n, ho⟩ := mem_forEachChanged _ _ _ hc
      simp at ho; subst ho; rfl)
  have h7 := h6.append (by decide : 6 ≤ 7)
    (b := forEachRemoved (delta.vlansDelta.map VlanDelta.vlan)
      (fun o => [HandlerCall.ProcessRemovedVlan o]))
    (by
      intro c hc
      obtain ⟨o, ho⟩ := mem_forEachRemoved _ _ _ hc
      simp at ho; subst ho; rfl)
  have h8 := h7.append (by decide : 7 ≤ 8)
    (b := forEachAdded delta.intfsDelta (fun intf => [HandlerCall.ProcessAddedIntf intf]))
    (by
      intro c hc
      obtain ⟨o, ho⟩ := mem_forEachAdded _ _ _ hc
      simp at ho; subst ho; rfl)
  have h9 := h8.append (by decide : 8 ≤ 9) (b := [HandlerCall.AddHostsForDemo])
    (by intro c hc; simp at hc; subst hc; rfl)
  have h10 := h9.append (by decide : 9 ≤ 10) (fun c => phaseOf_arpChanges c delta.vlansDelta)
  have h11 := h10.append (by decide : 10 ≤ 11)
    (fun c => phaseOf_addedChangedRoutes c delta.routeTablesDelta)
  have h12 := h11.append (by decide : 11 ≤ 12) (phaseOf_enable delta.portsDelta)
  simpa [stateChangedBody] using h12.1

/-- When every handler returns, the run makes all the invocations of the body. -/
theorem runHandlers_all_return :
    ∀ (todo done : List HandlerCall),
      runHandlers (fun _ _ => HandlerOutcome.returns) done todo =
        { trace := done ++ todo, returned := true, logged := none } := by
  intro todo
  induction todo with
  | nil => intro done; simp [runHandlers]
  | cons c rest ih =>
    intro done
    have hc : handlerOutcome (fun _ _ => HandlerOutcome.returns) done c = HandlerOutcome.returns := by
      cases c <;> rfl
    simp [runHandlers, hc, ih]

/-- Releasing right after acquiring the same tuple restores the host table. -/
theorem deref_incRef (t : SaiHostTable) (key : HostKey) :
    ((t.IncRefOrCreateSaiHost key).2.DerefSaiHost key).2.refCount = t.refCount := by
  unfold SaiHostTable.IncRefOrCreateSaiHost SaiHostTable.DerefSaiHost
  by_cases h0 : t.refCount key = 0
  · simp [h0]
  · simp [h0]

/-- What `refNewEntry` does when programming succeeds. -/
theorem refNewEntry_ok (api : HostProgramApi) (e : NeighborEntry) (s : NeighborState)
    (h : api (s.trace ++ [HostCall.IncRefOrCreateSaiHost e.key]) e.key (newEntryAction e) = none) :
    refNewEntry api e s = Except.ok
      { hostTable := (s.hostTable.IncRefOrCreateSaiHost e.key).2,
        trace := s.trace ++ [HostCall.IncRefOrCreateSaiHost e.key,
          HostCall.Program e.key (newEntryAction e)] } := by
  unfold newEntryAction at h
  simp [refNewEntry, hostProgram, SaiHostTable.IncRefOrCreateSaiHost, newEntryAction, h]

/-- What `refNewEntry` does when programming fails. -/
theorem refNewEntry_fail (api : HostProgramApi) (e : NeighborEntry) (s : NeighborState)
    (err : SaiError)
    (h : api (s.trace ++ [HostCall.IncRefOrCreateSaiHost e.key]) e.key (newEntryAction e) =
      some err) :
    refNewEntry api e s = Except.ok
      { hostTable := ((s.hostTable.IncRefOrCreateSaiHost e.key).2.DerefSaiHost e.key).2,
        trace := s.trace ++ [HostCall.IncRefOrCreateSaiHost e.key,
          HostCall.Program e.key (newEntryAction e), HostCall.DerefSaiHost e.key] } := by
  unfold newEntryAction at h
  simp [refNewEntry, hostProgram, SaiHostTable.IncRefOrCreateSaiHost, newEntryAction, h]

/-- What `unrefOldEntry` does: one release, then the TRAP programming exactly when
the release handed back the host; never an error. -/
theorem unrefOldEntry_eq (api : HostProgramApi) (e : NeighborEntry) (s : NeighborState) :
    unrefOldEntry api e s = Except.ok
      { hostTable := (s.hostTable.DerefSaiHost e.key).2,
        trace := s.trace ++ HostCall.DerefSaiHost e.key ::
          (match (s.hostTable.DerefSaiHost e.key).1 with
           | some h => [HostCall.Program h SAI_PACKET_ACTION_TRAP]
           | none => []) } := by
  unfold unrefOldEntry
  cases hd : (s.hostTable.DerefSaiHost e.key).1 with
  | none => simp [hd]
  | some h =>
    cases hp : api (s.trace ++ [HostCall.DerefSaiHost e.key]) h SAI_PACKET_ACTION_TRAP <;>
      simp [hd, hostProgram, hp]

/-- The calls of `refNewEntry`: acquire, programming, and the undo release when
the programming failed; it always returns normally. -/
theorem refNewEntry_trace (api : HostProgramApi) (e : NeighborEntry) (s : NeighborState) :
    ∃ (s1 : NeighborState) (undo : List HostCall),
      refNewEntry api e s = Except.ok s1 ∧
      s1.trace = s.trace ++ [HostCall.IncRefOrCreateSaiHost e.key,
        HostCall.Program e.key (newEntryAction e)] ++ undo ∧
      (undo = [] ∨ undo = [HostCall.DerefSaiHost e.key]) := by
  cases hp : api (s.trace ++ [HostCall.IncRefOrCreateSaiHost e.key]) e.key (newEntryAction e) with
  | none => exact ⟨_, [], refNewEntry_ok api e s hp, by simp, Or.inl rfl⟩
  | some err =>
    exact ⟨_, [HostCall.DerefSaiHost e.key], refNewEntry_fail api e s err hp, by simp, Or.inr rfl⟩

/-- The calls of `unrefOldEntry` start with the release of the old tuple; it always
returns normally. -/
theorem unrefOldEntry_trace (api : HostProgramApi) (e : NeighborEntry) (s : NeighborState) :
    ∃ (s1 : NeighborState) (post : List HostCall),
      unrefOldEntry api e s = Except.ok s1 ∧
      s1.trace = s.trace ++ HostCall.DerefSaiHost e.key :: post :=
  ⟨_, _, unrefOldEntry_eq api e s, rfl⟩

/-- If the tuples differ in the sense tested by the code, the keys differ. -/
theorem key_ne_of_tuple_ne (oldEntry newEntry : NeighborEntry)
    (hdiff : oldEntry.intfID ≠ newEntry.intfID ∨ oldEntry.ip ≠ newEntry.ip ∨
      oldEntry.mac ≠ newEntry.mac) : newEntry.key ≠ oldEntry.key := by
  intro h
  simp only [NeighborEntry.key, HostKey.mk.injEq] at h
  rcases hdiff with h1 | h1 | h1
  · exact h1 h.1.symm
  · exact h1 h.2.1.symm
  · exact h1 h.2.2.symm

/-- C5: for a neighbor delta with old and new both present and a differing
(interface, IP, MAC) tuple, `ProcessNeighborEntryDelta` returns normally and its
calls start with the acquire of the new tuple; the release of the old tuple
comes later, and no release of the old tuple occurs in between.  What lies in
between is the programming of the new host, followed by the undo release of the
new tuple when that programming failed.  This holds for every answer of the
hardware, failure included. -/
theorem ProcessNeighborEntryDelta_changed_ref_before_deref (api : HostProgramApi)
    (oldEntry newEntry : NeighborEntry) (s : NeighborState)
    (hdiff : oldEntry.intfID ≠ newEntry.intfID ∨ oldEntry.ip ≠ newEntry.ip ∨
      oldEntry.mac ≠ newEntry.mac) :
    ∃ (s' : NeighborState) (mid post : List HostCall),
      ProcessNeighborEntryDelta api (.changed oldEntry newEntry) s = Except.ok s' ∧
      s'.trace = s.trace ++ [HostCall.IncRefOrCreateSaiHost newEntry.key] ++ mid ++
        [HostCall.DerefSaiHost oldEntry.key] ++ post ∧
      HostCall.DerefSaiHost oldEntry.key ∉ mid ∧
      (mid = [HostCall.Program newEntry.key (newEntryAction newEntry)] ∨
       mid = [HostCall.Program newEntry.key (newEntryAction newEntry),
              HostCall.DerefSaiHost newEntry.key]) := by
  have hkey := key_ne_of_tuple_ne oldEntry newEntry hdiff
  obtain ⟨s1, undo, h1, ht1, hundo⟩ := refNewEntry_trace api newEntry s
  obtain ⟨s2, post, h2, ht2⟩ := unrefOldEntry_trace api oldEntry s1
  refine ⟨s2, HostCall.Program newEntry.key (newEntryAction newEntry) :: undo, post, ?_, ?_, ?_, ?_⟩
  · simp only [ProcessNeighborEntryDelta, if_pos hdiff, h1]
    exact h2
  · rw [ht2, ht1]
    simp
  · rcases hundo with rfl | rfl
    · simp
    · simpa using fun h => hkey h.symm
  · rcases hundo with rfl | rfl
    · exact Or.inl rfl
    · exact Or.inr rfl

/-- Witness of C5: entry on interface 1, address 10, whose MAC changes from 100 to
200, on a hardware that refuses every programming call. -/
theorem ProcessNeighborEntryDelta_changed_ref_before_deref_witness :
    ((1 : Nat) ≠ 1 ∨ (10 : Nat) ≠ 10 ∨ (100 : Nat) ≠ 200) ∧
    ∃ (s' : NeighborState) (mid post : List HostCall),
      ProcessNeighborEntryDelta failingHostApi
        (.changed ⟨1, 10, 100, false⟩ ⟨1, 10, 200, false⟩) emptyNeighborState = Except.ok s' ∧
      s'.trace = emptyNeighborState.trace ++
        [HostCall.IncRefOrCreateSaiHost (NeighborEntry.key ⟨1, 10, 200, false⟩)] ++ mid ++
        [HostCall.DerefSaiHost (NeighborEntry.key ⟨1, 10, 100, false⟩)] ++ post ∧
      HostCall.DerefSaiHost (NeighborEntry.key ⟨1, 10, 100, false⟩) ∉ mid ∧
      (mid = [HostCall.Program (NeighborEntry.key ⟨1, 10, 200, false⟩)
          (newEntryAction ⟨1, 10, 200, false⟩)] ∨
       mid = [HostCall.Program (NeighborEntry.key ⟨1, 10, 200, false⟩)
          (newEntryAction ⟨1, 10, 200, false⟩),
         HostCall.DerefSaiHost (NeighborEntry.key ⟨1, 10, 200, false⟩)]) :=
  ⟨by decide,
   ProcessNeighborEntryDelta_changed_ref_before_deref failingHostApi ⟨1, 10, 100, false⟩
     ⟨1, 10, 200, false⟩ emptyNeighborState (by decide)⟩

/-- C6: when a neighbor entry is added and programming its host fails with a
`SaiError`, `ProcessNeighborEntryDelta` returns normally; its calls are the
acquire, the failed programming and one release, all on the tuple of the new
entry; every reference count of the host table is what it was before the
call; and the loops of `ProcessArpChanges` go on with the remaining deltas from
the resulting state. -/
theorem ProcessNeighborEntryDelta_added_program_failure (api : HostProgramApi)
    (newEntry : NeighborEntry) (s : NeighborState) (err : SaiError)
    (hfail : api (s.trace ++ [HostCall.IncRefOrCreateSaiHost newEntry.key]) newEntry.key
      (newEntryAction newEntry) = some err) :
    ∃ s' : NeighborState,
      ProcessNeighborEntryDelta api (.added newEntry) s = Except.ok s' ∧
      s'.hostTable.refCount = s.hostTable.refCount ∧
      s'.trace = s.trace ++ [HostCall.IncRefOrCreateSaiHost newEntry.key,
        HostCall.Program newEntry.key (newEntryAction newEntry),
        HostCall.DerefSaiHost newEntry.key] ∧
      (∀ rest : List (DeltaValue NeighborEntry),
        processNeighborDeltas api (.added newEntry :: rest) s =
          processNeighborDeltas api rest s') ∧
      (∀ (v : DeltaValue Vlan) (arp ndp : List (DeltaValue NeighborEntry))
          (vs : List VlanDelta),
        ProcessArpChanges api (⟨v, .added newEntry :: arp, ndp⟩ :: vs) s =
          ProcessArpChanges api (⟨v, arp, ndp⟩ :: vs) s') := by
  have hres : ProcessNeighborEntryDelta api (.added newEntry) s = Except.ok _ :=
    refNewEntry_fail api newEntry s err hfail
  refine ⟨_, hres, deref_incRef s.hostTable newEntry.key, rfl, ?_, ?_⟩
  · intro rest
    simp only [processNeighborDeltas, hres]
  · intro v arp ndp vs
    simp only [ProcessArpChanges, processNeighborDeltas, hres]

/-- Witness of C6: a pending entry added on a hardware that refuses every
programming call, starting from the empty host table. -/
theorem ProcessNeighborEntryDelta_added_program_failure_witness :
    failingHostApi
        (emptyNeighborState.trace ++
          [HostCall.IncRefOrCreateSaiHost (NeighborEntry.key ⟨1, 10, 100, true⟩)])
        (NeighborEntry.key ⟨1, 10, 100, true⟩) (newEntryAction ⟨1, 10, 100, true⟩) =
      some ⟨1⟩ ∧
    ∃ s' : NeighborState,
      ProcessNeighborEntryDelta failingHostApi (.added ⟨1, 10, 100, true⟩) emptyNeighborState =
        Except.ok s' ∧
      s'.hostTable.refCount = emptyNeighborState.hostTable.refCount ∧
      s'.trace = emptyNeighborState.trace ++
        [HostCall.IncRefOrCreateSaiHost (NeighborEntry.key ⟨1, 10, 100, true⟩),
         HostCall.Program (NeighborEntry.key ⟨1, 10, 100, true⟩)
           (newEntryAction ⟨1, 10, 100, true⟩),
         HostCall.DerefSaiHost (NeighborEntry.key ⟨1, 10, 100, true⟩)] ∧
      (∀ rest : List (DeltaValue NeighborEntry),
        processNeighborDeltas failingHostApi (.added ⟨1, 10, 100, true⟩ :: rest)
            emptyNeighborState =
          processNeighborDeltas failingHostApi rest s') ∧
      (∀ (v : DeltaValue Vlan) (arp ndp : List (DeltaValue NeighborEntry))
          (vs : List VlanDelta),
        ProcessArpChanges failingHostApi (⟨v, .added ⟨1, 10, 100, true⟩ :: arp, ndp⟩ :: vs)
            emptyNeighborState =
          ProcessArpChanges failingHostApi (⟨v, arp, ndp⟩ :: vs) s') :=
  ⟨rfl,
   ProcessNeighborEntryDelta_added_program_failure failingHostApi ⟨1, 10, 100, true⟩
     emptyNeighborState ⟨1⟩ rfl⟩

/-- C7: when a neighbor entry is added, `ProcessNeighborEntryDelta` returns normally
and its calls are one acquire of the new tuple, then one programming of that
host, then at most the undo release; no second acquire and no second
programming.  The action programmed is DROP exactly when the entry is pending
and FORWARD exactly when it is not. -/
theorem ProcessNeighborEntryDelta_added_acquire_then_program (api : HostProgramApi)
    (newEntry : NeighborEntry) (s : NeighborState) :
    ∃ (s' : NeighborState) (undo : List HostCall),
      ProcessNeighborEntryDelta api (.added newEntry) s = Except.ok s' ∧
      s'.trace = s.trace ++ [HostCall.IncRefOrCreateSaiHost newEntry.key,
        HostCall.Program newEntry.key (newEntryAction newEntry)] ++ undo ∧
      (undo = [] ∨ undo = [HostCall.DerefSaiHost newEntry.key]) ∧
      (newEntryAction newEntry = SAI_PACKET_ACTION_DROP ↔ newEntry.pending = true) ∧
      (newEntryAction newEntry = SAI_PACKET_ACTION_FORWARD ↔ newEntry.pending = false) := by
  have hact : (newEntryAction newEntry = SAI_PACKET_ACTION_DROP ↔ newEntry.pending = true) ∧
      (newEntryAction newEntry = SAI_PACKET_ACTION_FORWARD ↔ newEntry.pending = false) := by
    unfold newEntryAction
    cases newEntry.pending <;> simp
  obtain ⟨s1, undo, h1, ht1, hundo⟩ := refNewEntry_trace api newEntry s
  exact ⟨s1, undo, h1, ht1, hundo, hact⟩

/-- C8: when a neighbor entry is removed, `ProcessNeighborEntryDelta` returns normally
for every answer of the hardware; its calls are one release of the old tuple,
followed by one programming with action TRAP of the host that the release
returned, and by nothing when the release returned none. -/
theorem ProcessNeighborEntryDelta_removed (api : HostProgramApi) (oldEntry : NeighborEntry)
    (s : NeighborState) :
    ProcessNeighborEntryDelta api (.removed oldEntry) s = Except.ok
      { hostTable := (s.hostTable.DerefSaiHost oldEntry.key).2,
        trace := s.trace ++ HostCall.DerefSaiHost oldEntry.key ::
          (match (s.hostTable.DerefSaiHost oldEntry.key).1 with
           | some host => [HostCall.Program host SAI_PACKET_ACTION_TRAP]
           | none => []) } :=
  unrefOldEntry_eq api oldEntry s

/-! ### Routes -/

theorem upsertResolved_ProcessAddedRoute (id : RouterID) (route : Route) :
    ∀ c ∈ ProcessAddedRoute id route, upsertResolved c = true := by
  intro c hc
  unfold ProcessAddedRoute at hc
  cases hr : route.resolved <;> simp [hr] at hc
  subst hc
  simpa [upsertResolved] using hr

theorem upsertResolved_ProcessRemovedRoute (id : RouterID) (route : Route) :
    ∀ c ∈ ProcessRemovedRoute id route, upsertResolved c = true := by
  intro c hc
  unfold ProcessRemovedRoute at hc
  cases hr : route.resolved <;> simp [hr] at hc
  subst hc
  rfl

theorem upsertResolved_ProcessChangedRoute (id : RouterID) (oldRoute newRoute : Route) :
    ∀ c ∈ ProcessChangedRoute id oldRoute newRoute, upsertResolved c = true := by
  intro c hc
  unfold ProcessChangedRoute at hc
  cases hr : newRoute.resolved <;> simp [hr] at hc
  · exact upsertResolved_ProcessRemovedRoute id oldRoute c hc
  · subst hc
    simpa [upsertResolved] using hr

theorem upsertResolved_ProcessAddedChangedRoutes :
    ∀ (rts : List RouteTableDelta), ∀ c ∈ ProcessAddedChangedRoutes rts,
      upsertResolved c = true := by
  intro rts
  induction rts with
  | nil => intro c hc; simp [ProcessAddedChangedRoutes] at hc
  | cons d rest ih =>
    intro c hc
    unfold ProcessAddedChangedRoutes at hc
    split at hc
    · exact ih c hc
    · rename_i id _
      simp only [List.mem_append] at hc
      rcases hc with (h | h) | h
      · rcases mem_forEachChanged3 _ _ _ _ _ h with ⟨o, n, hr⟩ | ⟨n, hr⟩ | ⟨o, hr⟩
        · exact upsertResolved_ProcessChangedRoute id o n c hr
        · exact upsertResolved_ProcessAddedRoute id n c hr
        · simp at hr
      · rcases mem_forEachChanged3 _ _ _ _ _ h with ⟨o, n, hr⟩ | ⟨n, hr⟩ | ⟨o, hr⟩
        · exact upsertResolved_ProcessChangedRoute id o n c hr
        · exact upsertResolved_ProcessAddedRoute id n c hr
        · simp at hr
      · exact ih c h

/-- The calls issued are the calls issued before followed by an initial part of
the calls attempted. -/
theorem issueRouteCalls_sublist (api : RouteTableApi) :
    ∀ (todo issued : List RouteTableCall),
      List.Sublist (issueRouteCalls api issued todo).1 (issued ++ todo) := by
  intro todo
  induction todo with
  | nil => intro issued; simp [issueRouteCalls]
  | cons c rest ih =>
    intro issued
    unfold issueRouteCalls
    split
    · exact List.Sublist.append (List.Sublist.refl issued) (by simp)
    · simpa using ih (issued ++ [c])

/-- C9: only resolved routes are programmed.  For every route tables delta and
every behaviour of the route table, each upsert (`AddRoute`) issued by the
added/changed route pass carries a resolved route; so does each call of a
single `ProcessChangedRoute` or `ProcessAddedRoute`; adding an unresolved route
issues no route table call and adding a resolved route issues exactly one
upsert, of that route. -/
theorem only_resolved_routes_programmed (api : RouteTableApi)
    (routeTablesDelta : List RouteTableDelta) (id : RouterID) (oldRoute newRoute : Route)
    (network mask : Nat) :
    (issueRouteCalls api [] (ProcessAddedChangedRoutes routeTablesDelta)).1.all upsertResolved
      = true ∧
    (ProcessChangedRoute id oldRoute newRoute).all upsertResolved = true ∧
    (ProcessAddedRoute id newRoute).all upsertResolved = true ∧
    ProcessAddedRoute id ⟨network, mask, false⟩ = [] ∧
    ProcessAddedRoute id ⟨network, mask, true⟩ =
      [RouteTableCall.AddRoute id ⟨network, mask, true⟩] := by
  refine ⟨?_, ?_, ?_, rfl, rfl⟩
  · rw [List.all_eq_true]
    intro c hc
    have hsub := issueRouteCalls_sublist api (ProcessAddedChangedRoutes routeTablesDelta) []
    exact upsertResolved_ProcessAddedChangedRoutes routeTablesDelta c
      (by simpa using hsub.subset hc)
  · rw [List.all_eq_true]
    exact upsertResolved_ProcessChangedRoute id oldRoute newRoute
  · rw [List.all_eq_true]
    exact upsertResolved_ProcessAddedRoute id newRoute

/-- C10: the calls of `ProcessChangedRoute`.  If the new route is unresolved they are
the calls of removing the old route: one delete of the old route when it is
resolved, nothing when it is not, and never an upsert.  If the new route is
resolved they are exactly one upsert of the new route.  Hence an unresolved
route that is added, and in a later pass changed into a resolved route, gives
over the two events exactly one route table call, the upsert of the resolved
route, whatever the route table answers. -/
theorem ProcessChangedRoute_calls (api : RouteTableApi) (id : RouterID)
    (oldRoute newRoute : Route) (n0 m0 n1 m1 : Nat) :
    ProcessChangedRoute id oldRoute newRoute =
      (match newRoute.resolved, oldRoute.resolved with
       | true, _ => [RouteTableCall.AddRoute id newRoute]
       | false, true => [RouteTableCall.DeleteRoute id oldRoute]
       | false, false => []) ∧
    ProcessChangedRoute id oldRoute ⟨n1, m1, false⟩ = ProcessRemovedRoute id oldRoute ∧
    ProcessAddedRoute id ⟨n0, m0, false⟩ ++
      ProcessChangedRoute id ⟨n0, m0, false⟩ ⟨n1, m1, true⟩ =
        [RouteTableCall.AddRoute id ⟨n1, m1, true⟩] ∧
    issueRouteCalls api
      (issueRouteCalls api []
        (ProcessAddedChangedRoutes [⟨.changed id id, [.added ⟨n0, m0, false⟩], []⟩])).1
      (ProcessAddedChangedRoutes
        [⟨.changed id id, [.changed ⟨n0, m0, false⟩ ⟨n1, m1, true⟩], []⟩]) =
      ([RouteTableCall.AddRoute id ⟨n1, m1, true⟩],
        api [] (RouteTableCall.AddRoute id ⟨n1, m1, true⟩)) := by
  refine ⟨?_, rfl, rfl, ?_⟩
  · unfold ProcessChangedRoute ProcessRemovedRoute
    cases newRoute.resolved <;> cases oldRoute.resolved <;> rfl
  · simp only [ProcessAddedChangedRoutes, DeltaValue.getNew, forEachChanged3, ProcessAddedRoute,
      ProcessChangedRoute, issueRouteCalls]
    cases h : api [] (RouteTableCall.AddRoute id ⟨n1, m1, true⟩) <;> simp [issueRouteCalls, h]

/-! ### The VLAN creation path -/

/-- The loop of `is_equal` accepts two vectors of the same size exactly when they
are equal. -/
theorem is_equal_loop_iff :
    ∀ a b : List sai_vlan_port_t, a.length = b.length → (is_equal_loop a b = true ↔ a = b) := by
  intro a
  induction a with
  | nil =>
    intro b hlen
    cases b with
    | nil => simp [is_equal_loop]
    | cons e es => simp at hlen
  | cons n ns ih =>
    intro b hlen
    cases b with
    | nil => simp at hlen
    | cons e es =>
      have hlen2 : ns.length = es.length := by simpa using hlen
      unfold is_equal_loop
      by_cases h : n.port_id ≠ e.port_id ∨ n.tagging_mode ≠ e.tagging_mode
      · simp only [h, if_true]
        constructor
        · intro hf; exact absurd hf (by simp)
        · intro heq
          injection heq with h1 h2
          subst h1
          simp at h
      · simp only [h, if_false]
        rw [ih es hlen2]
        have h2 : n.port_id = e.port_id ∧ n.tagging_mode = e.tagging_mode := by
          constructor
          · by_contra hc; exact h (Or.inl hc)
          · by_contra hc; exact h (Or.inr hc)
        have hne : n = e := by
          cases n; cases e; simp at h2; simp [h2]
        constructor
        · intro hh; rw [hne, hh]
        · intro hh; injection hh

/-- The lambda `is_equal` answers true exactly when the VLAN IDs are the same and
the two membership vectors are positionally equal. -/
theorem is_equal_iff (a b : VlanInfo) : is_equal a b = true ↔ a = b := by
  unfold is_equal
  by_cases h : a.vlan_ ≠ b.vlan_ ∨ a.ports_.length ≠ b.ports_.length
  · simp only [h, if_true]
    constructor
    · intro hf; exact absurd hf (by simp)
    · intro heq; subst heq; simp at h
  · simp only [h, if_false]
    have h2 : a.vlan_ = b.vlan_ ∧ a.ports_.length = b.ports_.length := by
      constructor
      · by_contra hc; exact h (Or.inl hc)
      · by_contra hc; exact h (Or.inr hc)
    rw [is_equal_loop_iff _ _ h2.2]
    constructor
    · intro hp; cases a; cases b; simp at h2 hp; simp [h2.1, hp]
    · intro heq; rw [heq]

theorem lookupCachedVlan_programmed (v w : VlanID) :
    ∀ l : List (VlanID × CachedVlan),
      lookupCachedVlan (l.map fun kv =>
          (kv.1, if kv.1 = v then { kv.2 with programmed := true } else kv.2)) w =
        (lookupCachedVlan l w).map fun entry =>
          if w = v then { entry with programmed := true } else entry := by
  intro l
  induction l with
  | nil => simp [lookupCachedVlan]
  | cons kv rest ih =>
    obtain ⟨k, entry⟩ := kv
    simp only [List.map_cons, lookupCachedVlan]
    by_cases hkw : k = w
    · subst hkw; simp
    · simp only [hkw, if_false]; exact ih

/-- Marking an entry programmed does not change what `findVlanInfo` returns. -/
theorem findVlanInfo_programmed (cache : SaiWarmBootCache) (v w : VlanID) :
    (cache.programmed v).findVlanInfo w = cache.findVlanInfo w := by
  unfold SaiWarmBootCache.findVlanInfo SaiWarmBootCache.programmed
  rw [lookupCachedVlan_programmed]
  cases lookupCachedVlan cache.vlan2VlanInfo_ w with
  | none => rfl
  | some entry => by_cases h : w = v <;> simp [h]

/-- After `programmed` the entry of the VLAN, when there is one, carries the
flag. -/
theorem isProgrammed_programmed (cache : SaiWarmBootCache) (v : VlanID) (info : VlanInfo)
    (h : cache.findVlanInfo v = some info) : (cache.programmed v).isProgrammed v = true := by
  unfold SaiWarmBootCache.findVlanInfo at h
  unfold SaiWarmBootCache.isProgrammed SaiWarmBootCache.programmed
  rw [lookupCachedVlan_programmed]
  cases hl : lookupCachedVlan cache.vlan2VlanInfo_ v with
  | none => simp [hl] at h
  | some entry => simp

/-- Marking twice is marking once. -/
theorem programmed_idem (cache : SaiWarmBootCache) (v : VlanID) :
    (cache.programmed v).programmed v = cache.programmed v := by
  unfold SaiWarmBootCache.programmed
  simp only [List.map_map, SaiWarmBootCache.mk.injEq]
  apply List.map_congr_left
  intro kv _
  by_cases h : kv.1 = v <;> simp [h]

/-- The member list built for a VLAN is the list of its resolvable ports, in the
order of the membership, each with the tagging mode of its entry. -/
theorem buildPortList_eq_filterMap (g : GetSaiPortId) :
    ∀ ports : MemberPorts,
      buildPortList g ports =
        ports.filterMap fun entry =>
          (g entry.1).map fun saiPort => ⟨saiPort, some (taggingMode entry.2)⟩ := by
  intro ports
  induction ports with
  | nil => rfl
  | cons entry rest ih =>
    unfold buildPortList
    cases h : g entry.1 with
    | none => simp [List.filterMap_cons, h, ih]
    | some p => simp [List.filterMap_cons, h, ih]

/-- The creation path with a cache entry equal to the desired membership: no
call, the entry is marked. -/
theorem ProcessAddedVlan_hit (env : VlanEnv) (fuel : Nat) (vlan : Vlan) (s : VlanState)
    (hfind : s.cache.findVlanInfo vlan.id =
      some ⟨vlan.id, buildPortList env.getSaiPortId vlan.ports⟩) :
    ProcessAddedVlan env (fuel + 1) vlan s =
      some { state := { cache := s.cache.programmed vlan.id, calls := s.calls },
             error := none } := by
  have heq : is_equal ⟨vlan.id, buildPortList env.getSaiPortId vlan.ports⟩
      ⟨vlan.id, buildPortList env.getSaiPortId vlan.ports⟩ = true := (is_equal_iff _ _).2 rfl
  simp [ProcessAddedVlan, hfind, heq]

/-- The creation path without cache entry when both SAI calls succeed. -/
theorem ProcessAddedVlan_miss_ok (env : VlanEnv) (fuel : Nat) (vlan : Vlan) (s : VlanState)
    (hfind : s.cache.findVlanInfo vlan.id = none)
    (hcreate : env.vlanApi (VlanApiCall.create_vlan vlan.id) = SAI_STATUS_SUCCESS)
    (hadd : env.vlanApi (VlanApiCall.add_ports_to_vlan vlan.id
      (buildPortList env.getSaiPortId vlan.ports)) = SAI_STATUS_SUCCESS) :
    ProcessAddedVlan env (fuel + 1) vlan s =
      some { state :=
               { cache := s.cache.AddVlanInfo vlan.id (buildPortList env.getSaiPortId vlan.ports),
                 calls := s.calls ++ [VlanApiCall.create_vlan vlan.id,
                   VlanApiCall.add_ports_to_vlan vlan.id
                     (buildPortList env.getSaiPortId vlan.ports)] },
             error := none } := by
  simp [ProcessAddedVlan, hfind, hcreate, hadd]

/-- The creation path without cache entry when `create_vlan` fails. -/
theorem ProcessAddedVlan_miss_create_fail (env : VlanEnv) (fuel : Nat) (vlan : Vlan)
    (s : VlanState) (hfind : s.cache.findVlanInfo vlan.id = none)
    (hcreate : env.vlanApi (VlanApiCall.create_vlan vlan.id) ≠ SAI_STATUS_SUCCESS) :
    ProcessAddedVlan env (fuel + 1) vlan s =
      some { state := { cache := s.cache, calls := s.calls ++ [VlanApiCall.create_vlan vlan.id] },
             error := some ⟨vlan.id⟩ } := by
  simp [ProcessAddedVlan, hfind, hcreate]

theorem lookupCachedVlan_append_new (v : VlanID) (entry : CachedVlan) :
    ∀ l : List (VlanID × CachedVlan), lookupCachedVlan l v = none →
      lookupCachedVlan (l ++ [(v, entry)]) v = some entry := by
  intro l
  induction l with
  | nil => intro _; simp [lookupCachedVlan]
  | cons kv rest ih =>
    obtain ⟨k, e⟩ := kv
    intro h
    by_cases hk : k = v
    · simp [lookupCachedVlan, hk] at h
    · simp only [lookupCachedVlan, hk, if_false] at h
      simpa [lookupCachedVlan, hk] using ih h

/-- After `AddVlanInfo` on a VLAN without entry, `findVlanInfo` returns what was
added. -/
theorem findVlanInfo_AddVlanInfo (cache : SaiWarmBootCache) (v : VlanID)
    (ports : List sai_vlan_port_t) (h : cache.findVlanInfo v = none) :
    (cache.AddVlanInfo v ports).findVlanInfo v = some ⟨v, ports⟩ := by
  have hl : lookupCachedVlan cache.vlan2VlanInfo_ v = none := by
    unfold SaiWarmBootCache.findVlanInfo at h
    cases hh : lookupCachedVlan cache.vlan2VlanInfo_ v with
    | none => rfl
    | some e => simp [hh] at h
  unfold SaiWarmBootCache.AddVlanInfo
  rw [h]
  simp [SaiWarmBootCache.findVlanInfo, lookupCachedVlan_append_new v _ _ hl]

/-- C14: warm-boot idempotence.  When the cache entry of the VLAN has the VLAN's
ID and a membership positionally equal to the desired resolved membership,
`ProcessAddedVlan` returns normally with no SAI VLAN call added to the trace (no
create-VLAN, add-ports or remove-ports) and the entry marked programmed; run
again on the resulting state it again issues no call and leaves that state
unchanged. -/
theorem ProcessAddedVlan_warm_boot_idempotent (env : VlanEnv) (fuel : Nat) (vlan : Vlan)
    (s : VlanState) (existing : VlanInfo)
    (hfind : s.cache.findVlanInfo vlan.id = some existing)
    (hid : existing.vlan_ = vlan.id)
    (hports : existing.ports_ = buildPortList env.getSaiPortId vlan.ports) :
    ProcessAddedVlan env (fuel + 1) vlan s =
      some { state := { cache := s.cache.programmed vlan.id, calls := s.calls },
             error := none } ∧
    (s.cache.programmed vlan.id).isProgrammed vlan.id = true ∧
    ProcessAddedVlan env (fuel + 1) vlan
        { cache := s.cache.programmed vlan.id, calls := s.calls } =
      some { state := { cache := s.cache.programmed vlan.id, calls := s.calls },
             error := none } := by
  have hex : existing = ⟨vlan.id, buildPortList env.getSaiPortId vlan.ports⟩ := by
    cases existing; simp at hid hports; simp [hid, hports]
  rw [hex] at hfind
  refine ⟨ProcessAddedVlan_hit env fuel vlan s hfind,
    isProgrammed_programmed s.cache vlan.id _ hfind, ?_⟩
  have h2 := ProcessAddedVlan_hit env fuel vlan
    { cache := s.cache.programmed vlan.id, calls := s.calls }
    (by rw [findVlanInfo_programmed]; exact hfind)
  rw [h2, programmed_idem]

/-- Witness of C14: VLAN 10 with ports 1 (untagged) and 2 (tagged), cached with
exactly that membership. -/
theorem ProcessAddedVlan_warm_boot_idempotent_witness :
    ProcessAddedVlan exampleVlanEnv 1 ⟨10, [(1, false), (2, true)]⟩
        (cachedVlanState 10 [⟨1, some SAI_VLAN_PORT_UNTAGGED⟩, ⟨2, some SAI_VLAN_PORT_TAGGED⟩]) =
      some { state :=
               { cache := (cachedVlanState 10 [⟨1, some SAI_VLAN_PORT_UNTAGGED⟩,
                   ⟨2, some SAI_VLAN_PORT_TAGGED⟩]).cache.programmed 10,
                 calls := [] },
             error := none } ∧
    ((cachedVlanState 10 [⟨1, some SAI_VLAN_PORT_UNTAGGED⟩,
        ⟨2, some SAI_VLAN_PORT_TAGGED⟩]).cache.programmed 10).isProgrammed 10 = true ∧
    ProcessAddedVlan exampleVlanEnv 1 ⟨10, [(1, false), (2, true)]⟩
        { cache := (cachedVlanState 10 [⟨1, some SAI_VLAN_PORT_UNTAGGED⟩,
            ⟨2, some SAI_VLAN_PORT_TAGGED⟩]).cache.programmed 10,
          calls := [] } =
      some { state :=
               { cache := (cachedVlanState 10 [⟨1, some SAI_VLAN_PORT_UNTAGGED⟩,
                   ⟨2, some SAI_VLAN_PORT_TAGGED⟩]).cache.programmed 10,
                 calls := [] },
             error := none } :=
  ProcessAddedVlan_warm_boot_idempotent exampleVlanEnv 0 ⟨10, [(1, false), (2, true)]⟩
    (cachedVlanState 10 [⟨1, some SAI_VLAN_PORT_UNTAGGED⟩, ⟨2, some SAI_VLAN_PORT_TAGGED⟩])
    ⟨10, [⟨1, some SAI_VLAN_PORT_UNTAGGED⟩, ⟨2, some SAI_VLAN_PORT_TAGGED⟩]⟩ rfl rfl rfl

/-- C16: the creation path without cache entry.  When the cache has no entry for
the VLAN and both SAI calls succeed, `ProcessAddedVlan` returns normally, the calls
it adds to the trace are one `create_vlan` for the VLAN ID followed by one
`add_ports_to_vlan` carrying the member list built from the desired membership
(its resolvable ports in membership order, each tagged or untagged as
desired), and the cache then returns that list for the VLAN.  When `create_vlan`
fails, the only call added is that `create_vlan`, a `SaiError` is thrown and the
cache is as before. -/
theorem ProcessAddedVlan_no_cache_entry (env : VlanEnv) (fuel : Nat) (vlan : Vlan)
    (s : VlanState) (hfind : s.cache.findVlanInfo vlan.id = none) :
    (env.vlanApi (VlanApiCall.create_vlan vlan.id) = SAI_STATUS_SUCCESS →
      env.vlanApi (VlanApiCall.add_ports_to_vlan vlan.id
        (buildPortList env.getSaiPortId vlan.ports)) = SAI_STATUS_SUCCESS →
      ∃ cache' : SaiWarmBootCache,
        ProcessAddedVlan env (fuel + 1) vlan s =
          some { state :=
                   { cache := cache',
                     calls := s.calls ++ [VlanApiCall.create_vlan vlan.id,
                       VlanApiCall.add_ports_to_vlan vlan.id
                         (buildPortList env.getSaiPortId vlan.ports)] },
                 error := none } ∧
        cache' = s.cache.AddVlanInfo vlan.id (buildPortList env.getSaiPortId vlan.ports) ∧
        cache'.findVlanInfo vlan.id =
          some ⟨vlan.id, buildPortList env.getSaiPortId vlan.ports⟩) ∧
    (env.vlanApi (VlanApiCall.create_vlan vlan.id) ≠ SAI_STATUS_SUCCESS →
      ProcessAddedVlan env (fuel + 1) vlan s =
        some { state :=
                 { cache := s.cache, calls := s.calls ++ [VlanApiCall.create_vlan vlan.id] },
               error := some ⟨vlan.id⟩ }) ∧
    buildPortList env.getSaiPortId vlan.ports =
      vlan.ports.filterMap fun entry =>
        (env.getSaiPortId entry.1).map fun saiPort => ⟨saiPort, some (taggingMode entry.2)⟩ := by
  refine ⟨?_, ?_, buildPortList_eq_filterMap env.getSaiPortId vlan.ports⟩
  · intro hcreate hadd
    exact ⟨_, ProcessAddedVlan_miss_ok env fuel vlan s hfind hcreate hadd, rfl,
      findVlanInfo_AddVlanInfo s.cache vlan.id _ hfind⟩
  · intro hcreate
    exact ProcessAddedVlan_miss_create_fail env fuel vlan s hfind hcreate

/-- Witness of C16: VLAN 10 with ports 1 (untagged) and 2 (tagged) on an empty
cache, once with a hardware that accepts every call and once with a hardware
that refuses `create_vlan`. -/
theorem ProcessAddedVlan_no_cache_entry_witness :
    emptyVlanState.cache.findVlanInfo 10 = none ∧
    (∃ cache' : SaiWarmBootCache,
      ProcessAddedVlan exampleVlanEnv 1 ⟨10, [(1, false), (2, true)]⟩ emptyVlanState =
        some { state :=
                 { cache := cache',
                   calls := emptyVlanState.calls ++ [VlanApiCall.create_vlan 10,
                     VlanApiCall.add_ports_to_vlan 10
                       (buildPortList exampleVlanEnv.getSaiPortId [(1, false), (2, true)])] },
               error := none } ∧
      cache' = emptyVlanState.cache.AddVlanInfo 10
        (buildPortList exampleVlanEnv.getSaiPortId [(1, false), (2, true)]) ∧
      cache'.findVlanInfo 10 =
        some ⟨10, buildPortList exampleVlanEnv.getSaiPortId [(1, false), (2, true)]⟩) ∧
    ProcessAddedVlan createFailsVlanEnv 1 ⟨10, [(1, false), (2, true)]⟩ emptyVlanState =
      some { state :=
               { cache := emptyVlanState.cache,
                 calls := emptyVlanState.calls ++ [VlanApiCall.create_vlan 10] },
             error := some ⟨10⟩ } :=
  ⟨rfl,
   (ProcessAddedVlan_no_cache_entry exampleVlanEnv 0 ⟨10, [(1, false), (2, true)]⟩
      emptyVlanState rfl).1 rfl rfl,
   (ProcessAddedVlan_no_cache_entry createFailsVlanEnv 0 ⟨10, [(1, false), (2, true)]⟩
      emptyVlanState rfl).2.1 (by decide)⟩

/-- When the merge loop is left, `removedPorts` is what it was when the loop was
entered: a pushed removal keeps the loop running for ever. -/
theorem mergeLoop_removedPorts (g : GetSaiPortId) :
    ∀ (fuel : Nat) (s s' : MergeState), mergeLoop g fuel s = some s' →
      s'.removedPorts = s.removedPorts := by
  intro fuel
  induction fuel with
  | zero => intro s s' h; simp [mergeLoop] at h
  | succ k ih =>
    intro s s' h
    obtain ⟨ol, nl, a, r⟩ := s
    cases ol with
    | nil =>
      simp [mergeLoop, mergeStep] at h
      rw [← h]
    | cons o os =>
      cases nl with
      | nil =>
        simp [mergeLoop, mergeStep] at h
        rw [← h]
      | cons n ns =>
        by_cases h1 : n.1 < o.1
        · cases hg : g n.1 with
          | none =>
            simp only [mergeLoop, mergeStep, h1, if_true, hg] at h
            have h3 := ih _ _ h
            exact h3
          | some p =>
            simp only [mergeLoop, mergeStep, h1, if_true, hg] at h
            have h3 := ih _ _ h
            exact h3
        · by_cases h2 : o.1 < n.1
          · cases hg : g o.1 with
            | none =>
              simp only [mergeLoop, mergeStep, h1, h2, if_true, if_false, hg] at h
              have h3 := ih _ _ h
              exact h3
            | some p =>
              rw [mergeLoop_removal_stuck g o n os ns p h2 hg (k + 1) a r] at h
              exact absurd h (by simp)
          · simp only [mergeLoop, mergeStep, h1, h2, if_false] at h
            have h3 := ih _ _ h
            exact h3

/-- Unfolding of `ProcessChangedVlan`: the loop, then the calls that apply the diff,
then the creation path when the diff is empty. -/
theorem ProcessChangedVlan_unfold (env : VlanEnv) (fuel : Nat) (oldVlan newVlan : Vlan)
    (s : VlanState) :
    ProcessChangedVlan env (fuel + 1) oldVlan newVlan s =
      match mergeLoop env.getSaiPortId fuel (mergeInit oldVlan newVlan) with
      | none => none
      | some m =>
        if m.addedPorts = [] ∧ m.removedPorts = [] then
          ProcessAddedVlan env fuel newVlan s
        else
          some { state :=
                   { cache := s.cache,
                     calls := s.calls ++
                       applyVlanDiff env.vlanApi newVlan.id m.addedPorts m.removedPorts },
                 error := none } := by
  rw [ProcessChangedVlan]
  cases hm : mergeLoop env.getSaiPortId fuel (mergeInit oldVlan newVlan) with
  | none => rfl
  | some m =>
    by_cases hempty : m.addedPorts = [] ∧ m.removedPorts = []
    · simp [hempty, applyVlanDiff]
    · have hlen : ¬ (m.addedPorts.length = 0 ∧ m.removedPorts.length = 0) := by
        simpa [List.length_eq_zero] using hempty
      simp [hempty, hlen]

/-- The calls of lines 827-842 by cases on the two lists, for every answer of the
hardware: the remove call, when there is one, comes before the add call. -/
theorem applyVlanDiff_cases (vlanApi : VlanApiCall → sai_status_t)
    (vlanId : VlanID) (a r : sai_vlan_port_t) (added removed : List sai_vlan_port_t) :
    applyVlanDiff vlanApi vlanId (a :: added) (r :: removed) =
      [VlanApiCall.remove_ports_from_vlan vlanId (r :: removed),
       VlanApiCall.add_ports_to_vlan vlanId (a :: added)] ∧
    applyVlanDiff vlanApi vlanId [] (r :: removed) =
      [VlanApiCall.remove_ports_from_vlan vlanId (r :: removed)] ∧
    applyVlanDiff vlanApi vlanId (a :: added) [] =
      [VlanApiCall.add_ports_to_vlan vlanId (a :: added)] ∧
    applyVlanDiff vlanApi vlanId [] [] = [] := by
  refine ⟨?_, ?_, ?_, ?_⟩ <;> simp [applyVlanDiff]

/-- With an empty diff `ProcessChangedVlan` is `ProcessAddedVlan` on the new VLAN. -/
theorem ProcessChangedVlan_empty_diff (env : VlanEnv) (fuel : Nat) (oldVlan newVlan : Vlan)
    (s : VlanState) (m : MergeState)
    (hloop : mergeLoop env.getSaiPortId fuel (mergeInit oldVlan newVlan) = some m)
    (hadd : m.addedPorts = []) (hrem : m.removedPorts = []) :
    ProcessChangedVlan env (fuel + 1) oldVlan newVlan s = ProcessAddedVlan env fuel newVlan s := by
  rw [ProcessChangedVlan_unfold, hloop]
  simp [hadd, hrem]

/-- A cache entry that differs from the desired membership while the merge loop,
whenever it is left, reports an empty diff: neither handler ever returns. -/
theorem ProcessAddedVlan_never_returns (env : VlanEnv) (vlan : Vlan) (s : VlanState)
    (existing : VlanInfo)
    (hfind : s.cache.findVlanInfo vlan.id = some existing)
    (hne : is_equal ⟨vlan.id, buildPortList env.getSaiPortId vlan.ports⟩ existing = false)
    (hdiff : ∀ (fuel : Nat) (m : MergeState),
      mergeLoop env.getSaiPortId fuel (mergeInit (env.fillVlanPortInfo s.cache vlan) vlan) =
        some m → m.addedPorts = [] ∧ m.removedPorts = []) :
    ∀ fuel : Nat,
      ProcessAddedVlan env fuel vlan s = none ∧
      ProcessChangedVlan env fuel (env.fillVlanPortInfo s.cache vlan) vlan s = none := by
  intro fuel
  induction fuel with
  | zero => exact ⟨by rw [ProcessAddedVlan], by rw [ProcessChangedVlan]⟩
  | succ k ih =>
    constructor
    · rw [ProcessAddedVlan]
      simp [hfind, hne, ih.2]
    · cases hm : mergeLoop env.getSaiPortId k
          (mergeInit (env.fillVlanPortInfo s.cache vlan) vlan) with
      | none => rw [ProcessChangedVlan_unfold, hm]
      | some m =>
        obtain ⟨ha, hr⟩ := hdiff k m hm
        rw [ProcessChangedVlan_empty_diff env k _ vlan s m hm ha hr]
        exact ih.1

/-- On two memberships with the single port 1 the merge loop, when it is left,
reports an empty diff, whatever the tagging modes. -/
theorem mergeLoop_same_port (t1 t2 : Bool) (fuel : Nat) (m : MergeState)
    (h : mergeLoop resolveAll fuel (mergeInit ⟨10, [(1, t1)]⟩ ⟨10, [(1, t2)]⟩) = some m) :
    m.addedPorts = [] ∧ m.removedPorts = [] := by
  rcases fuel with _ | _ | fuel
  · simp [mergeLoop] at h
  · simp [mergeLoop, mergeStep, mergeInit] at h
  · simp [mergeLoop, mergeStep, mergeInit] at h
    subst h
    exact ⟨rfl, rfl⟩

/-- With old = {1} and new = {1, 2} the merge loop, when it is left, reports an
empty diff: port 2 is dropped. -/
theorem mergeLoop_trailing_port (fuel : Nat) (m : MergeState)
    (h : mergeLoop resolveAll fuel
      (mergeInit ⟨10, [(1, false)]⟩ ⟨10, [(1, false), (2, false)]⟩) = some m) :
    m.addedPorts = [] ∧ m.removedPorts = [] := by
  rcases fuel with _ | _ | fuel
  · simp [mergeLoop] at h
  · simp [mergeLoop, mergeStep, mergeInit] at h
  · simp [mergeLoop, mergeStep, mergeInit] at h
    subst h
    exact ⟨rfl, rfl⟩

/-- C15 (code defect): with a differing cache entry `ProcessAddedVlan` does not
apply the incremental change.  Cache entry of VLAN 10 = {port 1 untagged},
desired membership = {1 untagged, 2 untagged}, every port resolvable: the merge
loop stops when the cached list is exhausted and reports an empty diff, the
empty diff sends `ProcessChangedVlan` back into `ProcessAddedVlan`, which finds the same
differing entry again; for every fuel the handler has not returned, so the
add-ports call for port 2 is never issued and the entry is never marked
programmed. -/
theorem ProcessAddedVlan_differing_cache_entry_defect :
    ∀ fuel : Nat,
      ProcessAddedVlan exampleVlanEnv fuel ⟨10, [(1, false), (2, false)]⟩
        (cachedVlanState 10 [⟨1, some SAI_VLAN_PORT_UNTAGGED⟩]) = none := by
  intro fuel
  exact (ProcessAddedVlan_never_returns exampleVlanEnv ⟨10, [(1, false), (2, false)]⟩
    (cachedVlanState 10 [⟨1, some SAI_VLAN_PORT_UNTAGGED⟩])
    ⟨10, [⟨1, some SAI_VLAN_PORT_UNTAGGED⟩]⟩ rfl (by decide)
    (fun k m h => mergeLoop_trailing_port k m h) fuel).1

/-- C20 (code defect): the recursion between the creation path and the diff does
not terminate.  Cache entry of VLAN 10 = {port 1 untagged}, desired membership
= {port 1 tagged}, port 1 resolvable: the entry is not equal to the desired
membership, the diff of the two is empty, and the chain `ProcessAddedVlan` ->
`ProcessChangedVlan` -> `ProcessAddedVlan` repeats on an unchanged cache; for every fuel
neither handler has returned. -/
theorem ProcessAddedVlan_recursion_never_returns :
    ∀ fuel : Nat,
      ProcessAddedVlan exampleVlanEnv fuel ⟨10, [(1, true)]⟩
          (cachedVlanState 10 [⟨1, some SAI_VLAN_PORT_UNTAGGED⟩]) = none ∧
      ProcessChangedVlan exampleVlanEnv fuel ⟨10, [(1, false)]⟩ ⟨10, [(1, true)]⟩
          (cachedVlanState 10 [⟨1, some SAI_VLAN_PORT_UNTAGGED⟩]) = none := by
  intro fuel
  exact ProcessAddedVlan_never_returns exampleVlanEnv ⟨10, [(1, true)]⟩
    (cachedVlanState 10 [⟨1, some SAI_VLAN_PORT_UNTAGGED⟩])
    ⟨10, [⟨1, some SAI_VLAN_PORT_UNTAGGED⟩]⟩ rfl (by decide)
    (fun k m h => mergeLoop_same_port false true k m h) fuel

/-- A run that logs a `SaiError` returns to the caller, and its trace ends with
the invocation that raised it. -/
theorem runHandlers_logged (env : HandlerEnv) (e : SaiError) :
    ∀ (todo done : List HandlerCall), (runHandlers env done todo).logged = some e →
      (runHandlers env done todo).returned = true ∧
      ∃ (init : List HandlerCall) (c : HandlerCall) (rest : List HandlerCall),
        todo = init ++ c :: rest ∧
        (runHandlers env done todo).trace = done ++ init ++ [c] ∧
        handlerOutcome env (done ++ init) c = HandlerOutcome.raises e := by
  intro todo
  induction todo with
  | nil => intro done h; simp [runHandlers] at h
  | cons c rest ih =>
    intro done h
    cases hc : handlerOutcome env done c with
    | returns =>
      simp only [runHandlers, hc] at h ⊢
      obtain ⟨hret, init, c', rest', htodo, htrace, hout⟩ := ih (done ++ [c]) h
      refine ⟨hret, c :: init, c', rest', by simp [htodo], by simpa using htrace, ?_⟩
      simpa using hout
    | raises e' =>
      have he : e' = e := by simpa [runHandlers, hc] using h
      subst he
      exact ⟨by simp [runHandlers, hc], [], c, rest, rfl, by simp [runHandlers, hc],
        by simpa using hc⟩
    | noReturn => simp [runHandlers, hc] at h

theorem phaseOf_of_isAfterChangedIntf (c : HandlerCall) (h : isAfterChangedIntf c = true) :
    7 ≤ phaseOf c := by
  cases c <;> simp [isAfterChangedIntf] at h <;> simp [phaseOf]
  case ChangePortState o n =>
    have h3 : ¬ (n.state = PortState.DOWN ∨ n.state = PortState.POWER_DOWN) := by
      rintro (h1 | h1)
      · exact h.1 h1
      · exact h.2 h1
    simp [h3]

/-- C18: abort on error.  When a run of `stateChanged` ends with a `SaiError` caught
by its catch block, the invocation `c` that raised it is the last of the trace:
the trace is the body up to `c`, every invocation made belongs to the phase of
`c` or an earlier one, and no invocation of a later phase is made.  If `c` is a
`ProcessChangedIntf` the trace holds no removed-VLAN, added-interface, demo-host,
neighbor, route upsert or port-enable invocation; if `c` is a `ProcessRemovedRoute`
it holds nothing beyond the port-disable and removed-route phases.  `stateChanged`
returns, and hands its caller what it hands after a complete pass. -/
theorem stateChanged_abort_on_error (env : HandlerEnv) (delta : StateDelta) (e : SaiError)
    (h : (stateChanged env delta).logged = some e) :
    (stateChanged env delta).returned = true ∧
    (stateChanged env delta).toCaller =
      (stateChanged (fun _ _ => HandlerOutcome.returns) delta).toCaller ∧
    ∃ (init : List HandlerCall) (c : HandlerCall) (rest : List HandlerCall),
      stateChangedBody delta = init ++ c :: rest ∧
      (stateChanged env delta).trace = init ++ [c] ∧
      handlerOutcome env init c = HandlerOutcome.raises e ∧
      (stateChanged env delta).trace.all (fun d => decide (phaseOf d ≤ phaseOf c)) = true ∧
      ((∃ o n, c = HandlerCall.ProcessChangedIntf o n) →
        (stateChanged env delta).trace.all (fun d => !isAfterChangedIntf d) = true) ∧
      ((∃ id r, c = HandlerCall.ProcessRemovedRoute id r) →
        (stateChanged env delta).trace.all (fun d => decide (phaseOf d ≤ 2)) = true) := by
  obtain ⟨hret, init, c, rest, hbody, htrace, hout⟩ :=
    runHandlers_logged env e (stateChangedBody delta) [] h
  have htrace2 : (stateChanged env delta).trace = init ++ [c] := by
    simpa [stateChanged] using htrace
  have hret2 : (stateChanged env delta).returned = true := hret
  have hphase : ∀ d ∈ init ++ [c], phaseOf d ≤ phaseOf c := by
    have hp := stateChangedBody_phases delta
    rw [hbody, List.pairwise_append] at hp
    intro d hd
    rcases List.mem_append.1 hd with hd | hd
    · exact hp.2.2 d hd c (by simp)
    · simp at hd; rw [hd]
  refine ⟨hret2, ?_, init, c, rest, hbody, htrace2, by simpa using hout, ?_, ?_, ?_⟩
  · have hall := runHandlers_all_return (stateChangedBody delta) []
    simp [StateChangedResult.toCaller, stateChanged, hall, hret]
  · rw [htrace2, List.all_eq_true]
    intro d hd
    simpa using hphase d hd
  · rintro ⟨o, n, hc⟩
    rw [htrace2, List.all_eq_true]
    intro d hd
    have hle := hphase d hd
    rw [hc] at hle
    cases hd2 : isAfterChangedIntf d with
    | false => rfl
    | true =>
      have h7 := phaseOf_of_isAfterChangedIntf d hd2
      have h6 : phaseOf (HandlerCall.ProcessChangedIntf o n) = 6 := rfl
      rw [h6] at hle
      omega
  · rintro ⟨id, r, hc⟩
    rw [htrace2, List.all_eq_true]
    intro d hd
    have hle := hphase d hd
    rw [hc] at hle
    have h2 : phaseOf (HandlerCall.ProcessRemovedRoute id r) = 2 := rfl
    rw [h2] at hle
    simpa using hle

/-- Witness of C18: the example delta on an environment where `ProcessChangedIntf`
raises. -/
theorem stateChanged_abort_on_error_witness :
    (stateChanged changedIntfFailsEnv exampleDelta).logged = some ⟨3⟩ ∧
    (stateChanged changedIntfFailsEnv exampleDelta).returned = true ∧
    (stateChanged changedIntfFailsEnv exampleDelta).toCaller =
      (stateChanged (fun _ _ => HandlerOutcome.returns) exampleDelta).toCaller ∧
    ∃ (init : List HandlerCall) (c : HandlerCall) (rest : List HandlerCall),
      stateChangedBody exampleDelta = init ++ c :: rest ∧
      (stateChanged changedIntfFailsEnv exampleDelta).trace = init ++ [c] ∧
      handlerOutcome changedIntfFailsEnv init c = HandlerOutcome.raises ⟨3⟩ ∧
      (stateChanged changedIntfFailsEnv exampleDelta).trace.all
        (fun d => decide (phaseOf d ≤ phaseOf c)) = true ∧
      ((∃ o n, c = HandlerCall.ProcessChangedIntf o n) →
        (stateChanged changedIntfFailsEnv exampleDelta).trace.all
          (fun d => !isAfterChangedIntf d) = true) ∧
      ((∃ id r, c = HandlerCall.ProcessRemovedRoute id r) →
        (stateChanged changedIntfFailsEnv exampleDelta).trace.all
          (fun d => decide (phaseOf d ≤ 2)) = true) :=
  ⟨by decide, stateChanged_abort_on_error changedIntfFailsEnv exampleDelta ⟨3⟩ (by decide)⟩

/-! ### The interface table -/

theorem mapFind_mapErase_self {β : Type} (k : Nat) :
    ∀ m : List (Nat × β), mapFind k (mapErase k m) = none := by
  intro m
  induction m with
  | nil => rfl
  | cons kv rest ih =>
    obtain ⟨k', v⟩ := kv
    unfold mapErase at ih ⊢
    by_cases h : k' = k
    · simpa [List.filter_cons, h] using ih
    · simpa [List.filter_cons, h, mapFind] using ih

theorem mapFind_mapErase_ne {β : Type} (k k2 : Nat) (hne : k2 ≠ k) :
    ∀ m : List (Nat × β), mapFind k2 (mapErase k m) = mapFind k2 m := by
  intro m
  induction m with
  | nil => rfl
  | cons kv rest ih =>
    obtain ⟨k', v⟩ := kv
    unfold mapErase at ih ⊢
    by_cases h : k' = k
    · have h2 : ¬ k = k2 := fun hh => hne hh.symm
      subst h
      simpa [List.filter_cons, mapFind, h2] using ih
    · by_cases h3 : k' = k2
      · subst h3
        simp [List.filter_cons, h, mapFind]
      · simpa [List.filter_cons, h, mapFind, h3] using ih

/-- C11: `AddIntf` for an interface whose ID already has an entry throws a
`SaiError`, makes no `Program` call and returns the table as it was: both indices
are unchanged, so the size is the same and the lookup of the ID still returns
the existing object. -/
theorem AddIntf_existing_interface (program : SaiIntfProgram) (t : SaiIntfTable)
    (intf : Interface) (obj : SaiIntf) (h : t.GetIntfIf intf.id = some obj) :
    t.AddIntf program intf = { table := t, calls := [], outcome := .error ⟨intf.id⟩ } ∧
    (t.AddIntf program intf).table.intfs_ = t.intfs_ ∧
    (t.AddIntf program intf).table.saiIntfs_ = t.saiIntfs_ ∧
    (t.AddIntf program intf).table.intfs_.length = t.intfs_.length ∧
    (t.AddIntf program intf).table.GetIntfIf intf.id = some obj := by
  have hres : t.AddIntf program intf =
      { table := t, calls := [], outcome := .error ⟨intf.id⟩ } := by
    unfold SaiIntfTable.GetIntfIf at h
    simp [SaiIntfTable.AddIntf, mapInsert, h]
  rw [hres]
  exact ⟨rfl, rfl, rfl, rfl, h⟩

/-- Witness of C11: interface 1 is added twice. -/
theorem AddIntf_existing_interface_witness :
    (emptyIntfTable.AddIntf workingIntfProgram ⟨1, 1, 1, []⟩).table.GetIntfIf 1 =
      some ⟨1, 101⟩ ∧
    (emptyIntfTable.AddIntf workingIntfProgram ⟨1, 1, 1, []⟩).table.AddIntf workingIntfProgram
        ⟨1, 1, 1, []⟩ =
      { table := (emptyIntfTable.AddIntf workingIntfProgram ⟨1, 1, 1, []⟩).table,
        calls := [], outcome := .error ⟨1⟩ } :=
  ⟨by decide,
   (AddIntf_existing_interface workingIntfProgram
      (emptyIntfTable.AddIntf workingIntfProgram ⟨1, 1, 1, []⟩).table ⟨1, 1, 1, []⟩ ⟨1, 101⟩
      (by decide)).1⟩

/-- C12: `DeleteIntf`.  For an interface ID without entry it throws a `SaiError` and
returns the table as it was.  For an ID with an entry it returns normally,
afterwards the lookup of the ID and the lookup of the handle of its object
both return nothing, and the lookups of every other ID and every other handle
return what they returned before. -/
theorem DeleteIntf_removes_both_entries (t : SaiIntfTable) (intf : Interface) :
    (t.GetIntfIf intf.id = none →
      t.DeleteIntf intf = { table := t, calls := [], outcome := .error ⟨intf.id⟩ }) ∧
    (∀ obj : SaiIntf, t.GetIntfIf intf.id = some obj →
      (t.DeleteIntf intf).outcome = .ok ∧
      (t.DeleteIntf intf).table.GetIntfIf intf.id = none ∧
      (t.DeleteIntf intf).table.GetIntfIfSai obj.saiIfId_ = none ∧
      (∀ id : InterfaceID, id ≠ intf.id →
        (t.DeleteIntf intf).table.GetIntfIf id = t.GetIntfIf id) ∧
      (∀ handle : sai_object_id_t, handle ≠ obj.saiIfId_ →
        (t.DeleteIntf intf).table.GetIntfIfSai handle = t.GetIntfIfSai handle)) := by
  constructor
  · intro h
    unfold SaiIntfTable.GetIntfIf at h
    simp [SaiIntfTable.DeleteIntf, h]
  · intro obj h
    unfold SaiIntfTable.GetIntfIf at h
    have hres : t.DeleteIntf intf =
        { table := { intfs_ := mapErase intf.id t.intfs_,
                     saiIntfs_ := mapErase obj.saiIfId_ t.saiIntfs_ },
          calls := [], outcome := .ok } := by
      simp [SaiIntfTable.DeleteIntf, h]
    rw [hres]
    refine ⟨rfl, ?_, ?_, ?_, ?_⟩
    · exact mapFind_mapErase_self intf.id t.intfs_
    · exact mapFind_mapErase_self obj.saiIfId_ t.saiIntfs_
    · intro id hne
      exact mapFind_mapErase_ne intf.id id hne t.intfs_
    · intro handle hne
      exact mapFind_mapErase_ne obj.saiIfId_ handle hne t.saiIntfs_

/-- Witness of C12: deleting interface 1 from the empty table, and from the table
that holds interfaces 1 and 2. -/
theorem DeleteIntf_removes_both_entries_witness :
    emptyIntfTable.DeleteIntf ⟨1, 1, 1, []⟩ =
      { table := emptyIntfTable, calls := [], outcome := .error ⟨1⟩ } ∧
    (((emptyIntfTable.AddIntf workingIntfProgram ⟨1, 1, 1, []⟩).table.AddIntf workingIntfProgram
        ⟨2, 1, 1, []⟩).table.DeleteIntf ⟨1, 1, 1, []⟩).table.GetIntfIf 2 =
      ((emptyIntfTable.AddIntf workingIntfProgram ⟨1, 1, 1, []⟩).table.AddIntf workingIntfProgram
        ⟨2, 1, 1, []⟩).table.GetIntfIf 2 ∧
    (((emptyIntfTable.AddIntf workingIntfProgram ⟨1, 1, 1, []⟩).table.AddIntf workingIntfProgram
        ⟨2, 1, 1, []⟩).table.DeleteIntf ⟨1, 1, 1, []⟩).table.GetIntfIfSai 102 =
      ((emptyIntfTable.AddIntf workingIntfProgram ⟨1, 1, 1, []⟩).table.AddIntf workingIntfProgram
        ⟨2, 1, 1, []⟩).table.GetIntfIfSai 102 ∧
    (((emptyIntfTable.AddIntf workingIntfProgram ⟨1, 1, 1, []⟩).table.AddIntf workingIntfProgram
        ⟨2, 1, 1, []⟩).table.DeleteIntf ⟨1, 1, 1, []⟩).table.GetIntfIf 1 = none ∧
    (((emptyIntfTable.AddIntf workingIntfProgram ⟨1, 1, 1, []⟩).table.AddIntf workingIntfProgram
        ⟨2, 1, 1, []⟩).table.DeleteIntf ⟨1, 1, 1, []⟩).table.GetIntfIfSai 101 = none :=
  ⟨(DeleteIntf_removes_both_entries emptyIntfTable ⟨1, 1, 1, []⟩).1 (by decide),
   ((DeleteIntf_removes_both_entries
      ((emptyIntfTable.AddIntf workingIntfProgram ⟨1, 1, 1, []⟩).table.AddIntf workingIntfProgram
        ⟨2, 1, 1, []⟩).table ⟨1, 1, 1, []⟩).2 ⟨1, 101⟩ (by decide)).2.2.2.1 2 (by decide),
   ((DeleteIntf_removes_both_entries
      ((emptyIntfTable.AddIntf workingIntfProgram ⟨1, 1, 1, []⟩).table.AddIntf workingIntfProgram
        ⟨2, 1, 1, []⟩).table ⟨1, 1, 1, []⟩).2 ⟨1, 101⟩ (by decide)).2.2.2.2 102 (by decide),
   ((DeleteIntf_removes_both_entries
      ((emptyIntfTable.AddIntf workingIntfProgram ⟨1, 1, 1, []⟩).table.AddIntf workingIntfProgram
        ⟨2, 1, 1, []⟩).table ⟨1, 1, 1, []⟩).2 ⟨1, 101⟩ (by decide)).2.1,
   ((DeleteIntf_removes_both_entries
      ((emptyIntfTable.AddIntf workingIntfProgram ⟨1, 1, 1, []⟩).table.AddIntf workingIntfProgram
        ⟨2, 1, 1, []⟩).table ⟨1, 1, 1, []⟩).2 ⟨1, 101⟩ (by decide)).2.2.1⟩

/-- C13 (code defect): the two indices are not mutual inverses in every reachable
state.  `AddIntf` inserts the new object into `intfs_` before it calls `Program`, and
when `Program` throws nothing takes the entry out again: starting from the empty
table, `AddIntf` of interface 1 on a hardware that refuses the programming ends
with a `SaiError` and a table in which interface 1 has an object while the
second index is empty.  The entry stays: a later `AddIntf` of interface 1 on a
working hardware fails with the existing-interface error. -/
theorem AddIntf_program_failure_leaves_entry :
    emptyIntfTable.mutualInverses = true ∧
    emptyIntfTable.AddIntf failingIntfProgram ⟨1, 1, 1, []⟩ =
      { table := { intfs_ := [(1, ⟨1, SAI_NULL_OBJECT_ID⟩)], saiIntfs_ := [] },
        calls := [.Program 1 ⟨1, 1, 1, []⟩],
        outcome := .error ⟨7⟩ } ∧
    (emptyIntfTable.AddIntf failingIntfProgram ⟨1, 1, 1, []⟩).table.mutualInverses = false ∧
    (emptyIntfTable.AddIntf failingIntfProgram ⟨1, 1, 1, []⟩).table.GetIntfIf 1 =
      some ⟨1, SAI_NULL_OBJECT_ID⟩ ∧
    (emptyIntfTable.AddIntf failingIntfProgram ⟨1, 1, 1, []⟩).table.GetIntfIfSai
      SAI_NULL_OBJECT_ID = none ∧
    ((emptyIntfTable.AddIntf failingIntfProgram ⟨1, 1, 1, []⟩).table.AddIntf workingIntfProgram
      ⟨1, 1, 1, []⟩).outcome = .error ⟨1⟩ := by
  refine ⟨?_, ?_, ?_, ?_, ?_, ?_⟩ <;> decide

/-! ### The cold-boot state -/

/-- C21 (code defect): the member ports of VLAN 1 in the cold-boot state are not
the registered ports.  With the hardware port list [5, 6] and a port table
that assigns them the logical ports 1 and 2, `GetColdBootSwitchState` registers
ports 1 and 2, but line 161 inserts `PortID(saiPort)` instead of `portID`: the one
VLAN of the state, VLAN 1, has the untagged members 5 and 6, which are the
hardware handles, and neither registered port is a member. -/
theorem GetColdBootSwitchState_members_are_handles :
    GetColdBootSwitchState examplePortTable [5, 6] =
      Except.ok { ports := [1, 2], vlans := [⟨1, [(5, false), (6, false)]⟩] } ∧
    ([(5, false), (6, false)] : MemberPorts).map Prod.fst ≠ [1, 2] ∧
    (1 : PortID) ∉ ([(5, false), (6, false)] : MemberPorts).map Prod.fst ∧
    (2 : PortID) ∉ ([(5, false), (6, false)] : MemberPorts).map Prod.fst := by
  refine ⟨rfl, ?_, ?_, ?_⟩ <;> decide

/-! ### Removals are never applied -/

/-- Neither VLAN handler, when it ends, has added a `remove_ports_from_vlan` call to
the trace. -/
theorem handlers_add_no_remove_ports (env : VlanEnv) :
    ∀ fuel : Nat,
      (∀ (oldVlan newVlan : Vlan) (s : VlanState) (r : VlanOutcome),
        ProcessChangedVlan env fuel oldVlan newVlan s = some r →
          r.state.calls.filter isRemovePortsCall = s.calls.filter isRemovePortsCall) ∧
      (∀ (vlan : Vlan) (s : VlanState) (r : VlanOutcome),
        ProcessAddedVlan env fuel vlan s = some r →
          r.state.calls.filter isRemovePortsCall = s.calls.filter isRemovePortsCall) := by
  intro fuel
  induction fuel with
  | zero =>
    constructor
    · intro o n s r h; rw [ProcessChangedVlan] at h; exact absurd h (by simp)
    · intro v s r h; rw [ProcessAddedVlan] at h; exact absurd h (by simp)
  | succ k ih =>
    constructor
    · intro o n s r h
      rw [ProcessChangedVlan_unfold] at h
      cases hm : mergeLoop env.getSaiPortId k (mergeInit o n) with
      | none => rw [hm] at h; exact absurd h (by simp)
      | some m =>
        rw [hm] at h
        have hrem : m.removedPorts = [] := by
          have h1 := mergeLoop_removedPorts env.getSaiPortId k _ m hm
          simpa [mergeInit] using h1
        by_cases hadd : m.addedPorts = []
        · simp only [hadd, hrem, and_self, if_true] at h
          exact ih.2 n s r h
        · simp only [hadd, hrem, false_and, if_false, Option.some.injEq] at h
          rw [← h]
          cases hl : m.addedPorts with
          | nil => exact absurd hl hadd
          | cons a as => simp [applyVlanDiff, List.filter_append, isRemovePortsCall]
    · intro v s r h
      rw [ProcessAddedVlan] at h
      cases hf : s.cache.findVlanInfo v.id with
      | some existing =>
        simp only [hf] at h
        by_cases heq : is_equal ⟨v.id, buildPortList env.getSaiPortId v.ports⟩ existing = true
        · simp only [heq, Bool.not_true, Bool.false_eq_true, if_false, Option.some.injEq] at h
          rw [← h]
        · have heq2 : is_equal ⟨v.id, buildPortList env.getSaiPortId v.ports⟩ existing = false := by
            simpa using heq
          simp only [heq2, Bool.not_false, if_true] at h
          cases hc : ProcessChangedVlan env k (env.fillVlanPortInfo s.cache v) v s with
          | none => rw [hc] at h; exact absurd h (by simp)
          | some r1 =>
            rw [hc] at h
            have h1 := ih.1 _ _ _ _ hc
            cases he : r1.error with
            | some e =>
              simp only [he, Option.some.injEq] at h
              rw [← h]; exact h1
            | none =>
              simp only [he, Option.some.injEq] at h
              rw [← h]; exact h1
      | none =>
        simp only [hf] at h
        by_cases hcreate : env.vlanApi (VlanApiCall.create_vlan v.id) ≠ SAI_STATUS_SUCCESS
        · simp only [hcreate, ne_eq, not_false_eq_true, if_true, Option.some.injEq] at h
          rw [← h]
          simp [List.filter_append, isRemovePortsCall]
        · by_cases hadd : env.vlanApi (VlanApiCall.add_ports_to_vlan v.id
              (buildPortList env.getSaiPortId v.ports)) ≠ SAI_STATUS_SUCCESS
          · simp only [hcreate, hadd, ne_eq, not_false_eq_true, if_true, if_false,
              Option.some.injEq] at h
            rw [← h]
            simp [List.filter_append, isRemovePortsCall]
          · simp only [hcreate, hadd, if_false, Option.some.injEq] at h
            rw [← h]
            simp [List.filter_append, isRemovePortsCall]

/-- C19 (code defect): `ProcessChangedVlan` never applies a diff that has a removal.
On old = {1 untagged, 3 tagged}, new = {2 untagged, 3 tagged} with every port
resolvable, a diff with one removal and one addition, the handler has not
returned for any fuel: the merge loop keeps pushing port 1, lines 827-842 are
never reached and neither `remove_ports_from_vlan` nor `add_ports_to_vlan` is issued.
More generally, for every port table, every pair of VLANs and every fuel, a
diff that the merge loop does deliver has an empty removed list, and a run of
`ProcessChangedVlan` that ends has added no `remove_ports_from_vlan` call to the trace,
whatever the hardware answers and whatever the cache holds. -/
theorem ProcessChangedVlan_never_issues_remove_ports :
    (∀ fuel : Nat,
      ProcessChangedVlan exampleVlanEnv fuel ⟨10, [(1, false), (3, true)]⟩
        ⟨10, [(2, false), (3, true)]⟩ emptyVlanState = none) ∧
    (∀ (g : GetSaiPortId) (fuel : Nat) (oldVlan newVlan : Vlan),
      (ProcessChangedVlan_diff g fuel oldVlan newVlan).all
        (fun diff => decide (diff.2 = [])) = true) ∧
    (∀ (env : VlanEnv) (fuel : Nat) (oldVlan newVlan : Vlan) (s : VlanState),
      (ProcessChangedVlan env fuel oldVlan newVlan s).all
        (fun r => decide (r.state.calls.filter isRemovePortsCall =
          s.calls.filter isRemovePortsCall)) = true) := by
  refine ⟨?_, ?_, ?_⟩
  · intro fuel
    cases fuel with
    | zero => rw [ProcessChangedVlan]
    | succ k =>
      have hstuck := mergeLoop_removal_stuck resolveAll (1, false) (2, false) [(3, true)]
        [(3, true)] 1 (by decide) rfl k [] []
      have hloop : mergeLoop exampleVlanEnv.getSaiPortId k
          (mergeInit ⟨10, [(1, false), (3, true)]⟩ ⟨10, [(2, false), (3, true)]⟩) = none := hstuck
      rw [ProcessChangedVlan_unfold, hloop]
  · intro g fuel oldVlan newVlan
    unfold ProcessChangedVlan_diff
    cases hm : mergeLoop g fuel (mergeInit oldVlan newVlan) with
    | none => rfl
    | some m =>
      have h1 := mergeLoop_removedPorts g fuel _ m hm
      have h2 : m.removedPorts = [] := by simpa [mergeInit] using h1
      simp [h2]
  · intro env fuel oldVlan newVlan s
    cases hr : ProcessChangedVlan env fuel oldVlan newVlan s with
    | none => rfl
    | some r =>
      have h1 := (handlers_add_no_remove_ports env fuel).1 oldVlan newVlan s r hr
      simp [h1]

end SaiSwitch
